import Mathlib

/-!
Verification development for the SODS sensor-node firmware
(`src/firmware/node-agent/src/main.cpp` with `include/config.h`).

The definitions below are a shallow embedding of the node-agent runtime:
pure C++ functions become Lean functions, the global mutable state becomes an
explicit `NodeState` record threaded through transition functions, machine
integers become `Nat`/`Int` (with an explicit `% 2^32` where the `uint32_t`
event sequence counter can wrap), and the external clock (`millis()` /
`esp_timer_get_time()/1000`) and the RNG (`random(0,1000)`) become explicit
parameters.  Arduino `String` is modelled by Lean `String`;
`String::indexOf(s) >= 0` is modelled by substring containment.
-/

set_option maxRecDepth 100000

/-! ## Compile-time configuration (include/config.h defaults) -/

def EVENT_SCHEMA_VERSION : Nat := 1
def EVENT_QUEUE_CAPACITY : Nat := 300
def INGEST_BATCH_SIZE : Nat := 1
def WIFI_RETRY_BASE_MS : Nat := 1000
def WIFI_RETRY_MAX_MS : Nat := 30000
def WIFI_CONNECT_TIMEOUT_MS : Nat := 15000
def BLE_OBS_CAPACITY : Nat := 128
def BLE_DEDUPE_MS : Nat := 5000
def BLE_MAX_PER_SECOND : Nat := 10

/-! ## String helpers

`hasPfx n h` models "`n` is a leading prefix of `h`"; `hasSub n h` models
Arduino `h.indexOf(n) >= 0` (substring occurrence). -/

def hasPfx : List Char → List Char → Bool
  | [], _ => true
  | _ :: _, [] => false
  | a :: as, b :: bs => a == b && hasPfx as bs

def hasSub (needle : List Char) : List Char → Bool
  | [] => needle.isEmpty
  | c :: rest => hasPfx needle (c :: rest) || hasSub needle rest

def strHas (hay needle : String) : Bool := hasSub needle.data hay.data

/-- jsonEscape (main.cpp lines 162-182): escape quote, backslash, newline,
carriage return and tab characters of a string. -/
def escChar (c : Char) : List Char :=
  if c = '"' then ['\\', '"']
  else if c = '\\' then ['\\', '\\']
  else if c = '\n' then ['\\', 'n']
  else if c = '\r' then ['\\', 'r']
  else if c = '\t' then ['\\', 't']
  else [c]

def jsonEscape (s : String) : String := ⟨(s.data.map escChar).flatten⟩

/-- jsonKV (main.cpp lines 184-189). -/
def jsonKV (key value : String) (quote : Bool) : String :=
  match quote with
  | true => "\"" ++ key ++ "\":\"" ++ jsonEscape value ++ "\""
  | false => "\"" ++ key ++ "\":" ++ value

/-- isValidEventJson (main.cpp lines 205-217, EVENT_VALIDATE_JSON = 1):
substring presence of the six required top-level keys. -/
def isValidEventJson (json : String) : Bool :=
  strHas json "\"v\"" && strHas json "\"ts_ms\"" && strHas json "\"node_id\"" &&
  strHas json "\"type\"" && strHas json "\"src\"" && strHas json "\"data\""

/-! ## Bounded event queue (main.cpp lines 11-54) -/

structure EventEntry where
  json : String
  logged : Bool
deriving DecidableEq

/-- EventQueue: fixed-capacity circular FIFO.  `buffer` models the allocated
`EventEntry[capacity_]` array (its length stays `capacity`). -/
structure EvQueue where
  capacity : Nat
  buffer : List EventEntry
  head : Nat
  tail : Nat
  count : Nat
deriving DecidableEq

/-- EventQueue constructor: `capacity_` elements, zero indices. -/
def EvQueue.init (cap : Nat) : EvQueue :=
  ⟨cap, List.replicate cap ⟨"", false⟩, 0, 0, 0⟩

/-- EventQueue::push (lines 24-32): reject when full, else write at tail. -/
def EvQueue.push (q : EvQueue) (json : String) : EvQueue × Bool :=
  if q.count ≥ q.capacity then (q, false)
  else ({ q with buffer := q.buffer.set q.tail ⟨json, false⟩,
                 tail := (q.tail + 1) % q.capacity,
                 count := q.count + 1 }, true)

/-- EventQueue::pop (lines 40-44): no-op when empty. -/
def EvQueue.pop (q : EvQueue) : EvQueue :=
  if q.count = 0 then q
  else { q with head := (q.head + 1) % q.capacity, count := q.count - 1 }

/-- EventQueue::front (line 36): `buffer_[head_]`. -/
def EvQueue.front (q : EvQueue) : EventEntry := q.buffer.getD q.head ⟨"", false⟩

/-- EventQueue::at (line 38): `buffer_[(head_ + idx) % capacity_]`. -/
def EvQueue.atIdx (q : EvQueue) (idx : Nat) : EventEntry :=
  q.buffer.getD ((q.head + idx) % q.capacity) ⟨"", false⟩

/-- Well-formedness of the circular buffer: the allocation has exactly
`capacity` slots, the head index is in bounds (hence `capacity > 0`), the
count never exceeds capacity and the tail sits `count` slots after the head. -/
def EvQueue.WF (q : EvQueue) : Prop :=
  q.buffer.length = q.capacity ∧ q.head < q.capacity ∧
  q.count ≤ q.capacity ∧ q.tail = (q.head + q.count) % q.capacity

instance (q : EvQueue) : Decidable q.WF := by
  unfold EvQueue.WF; infer_instance

/-- Abstraction of the ring buffer to the FIFO list of live entries,
oldest first. -/
def EvQueue.absQ (q : EvQueue) : List EventEntry :=
  (List.range q.count).map (fun i => q.atIdx i)

/-- A client-visible sequence of queue operations. -/
inductive QOp where
  | push (json : String)
  | pop
deriving DecidableEq

def runQOps : EvQueue → List QOp → EvQueue
  | q, [] => q
  | q, QOp.push j :: rest => runQOps (q.push j).1 rest
  | q, QOp.pop :: rest => runQOps q.pop rest

/-! ## BLE observation ring (main.cpp lines 56-65, 83-87) -/

structure BleObservation where
  mac : String
  name : String
  rssi : Int
  mfgLen : Nat
  svcCount : Nat
  advFlags : Nat
  lastSeenMs : Nat
  seenCount : Nat
deriving DecidableEq

/-- Zero-initialised observation, as the C++ in-class initialisers give. -/
instance : Inhabited BleObservation := ⟨⟨"", "", 0, 0, 0, 0, 0, 0⟩⟩

/-- bleMatches (main.cpp lines 1072-1076). -/
def bleMatches (obs : BleObservation) (mac : String) (advFlags : Nat) : Bool :=
  obs.mac == mac && obs.advFlags == advFlags

/-! ## Global node state (the `static` globals of main.cpp) -/

structure NodeState where
  queue : EvQueue
  eventSeq : Nat
  eventDropCount : Nat
  eventInvalidCount : Nat
  nodeId : String
  failCount : Nat
  nextSendAtMs : Nat
  ingestOkCount : Nat
  ingestErrCount : Nat
  lastIngestOkMs : Nat
  lastIngestErrMs : Nat
  lastIngestErr : String
  lastIngestOkEventMs : Nat
  lastIngestErrEventMs : Nat
  bleRing : List BleObservation
  bleRingCount : Nat
  bleRingHead : Nat
  bleRingOverwriteCount : Nat
  bleDedupeCount : Nat
  bleSeenCount : Nat
  bleSecondStart : Nat
  bleCountThisSecond : Nat
  lastBleResultMs : Nat
deriving DecidableEq

/-- The state right after boot: zero counters, empty queue of capacity
EVENT_QUEUE_CAPACITY, zeroed BLE ring of BLE_OBS_CAPACITY slots, and the
default node id (`NODE_ID` is empty so `kDefaultNodeId` is used). -/
def bootState : NodeState where
  queue := EvQueue.init EVENT_QUEUE_CAPACITY
  eventSeq := 0
  eventDropCount := 0
  eventInvalidCount := 0
  nodeId := "node-unknown"
  failCount := 0
  nextSendAtMs := 0
  ingestOkCount := 0
  ingestErrCount := 0
  lastIngestOkMs := 0
  lastIngestErrMs := 0
  lastIngestErr := ""
  lastIngestOkEventMs := 0
  lastIngestErrEventMs := 0
  bleRing := List.replicate BLE_OBS_CAPACITY default
  bleRingCount := 0
  bleRingHead := 0
  bleRingOverwriteCount := 0
  bleDedupeCount := 0
  bleSeenCount := 0
  bleSecondStart := 0
  bleCountThisSecond := 0
  lastBleResultMs := 0

/-! ## Event builder and admission (main.cpp lines 250-260, 319-339) -/

/-- The JSON string assembled by buildEvent (lines 321-334), with each
`json += ...;` statement of the source appending one chunk. -/
def buildEventJson (nodeId type dataJson extraJson : String) (ts seq : Nat) : String :=
  ("\x7b" ++ jsonKV "v" (toString EVENT_SCHEMA_VERSION) false)
  ++ ("," ++ jsonKV "ts_ms" (toString ts) false)
  ++ ("," ++ jsonKV "node_id" nodeId true)
  ++ ("," ++ jsonKV "type" type true)
  ++ ("," ++ jsonKV "src" nodeId true)
  ++ ("," ++ jsonKV "seq" (toString seq) false)
  ++ (if extraJson.length > 0 then "," ++ extraJson else "")
  ++ (",\"data\":" ++ dataJson)
  ++ "\x7d"

/-- buildEvent (lines 319-335).  `ts` is the millisecond timestamp read from
`esp_timer_get_time() / 1000`.  The `uint32_t` sequence counter post-increment
is modelled with an explicit wrap at `2^32`. -/
def buildEvent (s : NodeState) (type dataJson extraJson : String) (ts : Nat) :
    String × NodeState :=
  let seq := (s.eventSeq + 1) % 4294967296
  (buildEventJson s.nodeId type dataJson extraJson ts seq, { s with eventSeq := seq })

/-- enqueueEventChecked (lines 250-260): validate, then push; bump the
invalid counter or the drop counter on the two failure paths. -/
def enqueueEventChecked (s : NodeState) (json : String) : NodeState × Bool :=
  if !isValidEventJson json then
    ({ s with eventInvalidCount := s.eventInvalidCount + 1 }, false)
  else
    let r := s.queue.push json
    if !r.2 then ({ s with eventDropCount := s.eventDropCount + 1 }, false)
    else ({ s with queue := r.1 }, true)

/-- enqueueEvent (lines 337-339): discard the admission result. -/
def enqueueEvent (s : NodeState) (json : String) : NodeState :=
  (enqueueEventChecked s json).1

/-! ## Ingest client (main.cpp lines 145-153, 995-1070) -/

/-- markIngestOk (lines 145-148); `now` is the `millis()` read. -/
def markIngestOk (s : NodeState) (now : Nat) : NodeState :=
  { s with lastIngestOkMs := now, lastIngestErr := "" }

/-- markIngestErr (lines 150-153). -/
def markIngestErr (s : NodeState) (err : String) (now : Nat) : NodeState :=
  { s with lastIngestErr := err, lastIngestErrMs := now }

/-- The doubling loop shared by computeBackoffMs and computeWifiBackoffMs:
`n` iterations of `base = min(base * 2, maxv)`. -/
def doubleClamp (maxv : Nat) : Nat → Nat → Nat
  | base, 0 => base
  | base, n + 1 => doubleClamp maxv (min (base * 2) maxv) n

/-- computeBackoffMs (lines 995-1002): ingest backoff, base 1000 ms doubling
with 30000 ms ceiling, plus `random(0,1000)` jitter passed in explicitly. -/
def computeBackoffMs (failCount jitter : Nat) : Nat :=
  doubleClamp 30000 1000 failCount + jitter

/-- computeWifiBackoffMs (lines 241-248). -/
def computeWifiBackoffMs (wifiFailCount jitter : Nat) : Nat :=
  doubleClamp WIFI_RETRY_MAX_MS WIFI_RETRY_BASE_MS wifiFailCount + jitter

/-- One pass of the `logBatchIfNeeded` loop body (lines 1004-1012) for index
`i`: ensure entry `i` from the head carries `logged = true` (the Serial
output itself is not part of the state). -/
def setEntryLogged (q : EvQueue) (i : Nat) : EvQueue :=
  let idx := (q.head + i) % q.capacity
  { q with buffer := q.buffer.set idx { q.buffer.getD idx ⟨"", false⟩ with logged := true } }

def logLoop (q : EvQueue) : Nat → EvQueue
  | 0 => q
  | n + 1 => setEntryLogged (logLoop q n) n

/-- logBatchIfNeeded (lines 1004-1012). -/
def logBatchIfNeeded (s : NodeState) (batch : Nat) : NodeState :=
  { s with queue := logLoop s.queue batch }

/-- The `for (i in batch) queue.pop()` loop of the success branch. -/
def popN (q : EvQueue) : Nat → EvQueue
  | 0 => q
  | n + 1 => popN q.pop n

/-- emitIngestOk (lines 401-409). -/
def emitIngestOk (s : NodeState) (count ms now : Nat) : NodeState :=
  let data := "\x7b" ++ jsonKV "ok" "true" false
    ++ "," ++ jsonKV "batch_count" (toString count) false
    ++ "," ++ jsonKV "ms" (toString ms) false ++ "\x7d"
  let r := buildEvent s "ingest.ok" data "" now
  let s2 := enqueueEvent r.2 r.1
  { s2 with lastIngestOkEventMs := now }

/-- emitIngestErr (lines 411-419): note the extra hoisted `err` field. -/
def emitIngestErr (s : NodeState) (err : String) (ms now : Nat) : NodeState :=
  let data := "\x7b" ++ jsonKV "ok" "false" false
    ++ "," ++ jsonKV "err" err true
    ++ "," ++ jsonKV "ms" (toString ms) false ++ "\x7d"
  let r := buildEvent s "ingest.err" data (jsonKV "err" err true) now
  let s2 := enqueueEvent r.2 r.1
  { s2 with lastIngestErrEventMs := now }

/-- The state after the offline branch of trySendQueued (lines 1018-1023):
log the head entry, back off from the old fail count, then bump the fail
count saturating at 6.  (`logBatchIfNeeded(1)` only flips the head entry's
logged flag, i.e. `logLoop queue 1`; the backoff uses the fail count before
the increment, as the source assigns `nextSendAtMs` on line 1020 before
`failCount` on line 1021.) -/
def ingestOffline (s : NodeState) (t0 jitter : Nat) : NodeState :=
  { s with queue := logLoop s.queue 1,
           nextSendAtMs := t0 + computeBackoffMs s.failCount jitter,
           failCount := min (s.failCount + 1) 6 }

/-- The state reached by the success branch of trySendQueued before the
emission check (lines 1049-1054): pop the batch, clear the fail count, bump
the ok counter, and markIngestOk. -/
def ingestSuccessState (s : NodeState) (batch t1 : Nat) : NodeState :=
  markIngestOk
    { s with queue := popN s.queue batch, failCount := 0,
             ingestOkCount := s.ingestOkCount + 1 } t1

/-- The success branch of trySendQueued (lines 1048-1057), emission check
included.  The Option names the emit call that ran. -/
def ingestSuccess (s : NodeState) (batch ms t1 : Nat) : NodeState × Option String :=
  if (ingestSuccessState s batch t1).lastIngestErr.length > 0 ∨
      t1 - (ingestSuccessState s batch t1).lastIngestOkEventMs > 60000 then
    (emitIngestOk (ingestSuccessState s batch t1) batch ms t1, some "ingest.ok")
  else (ingestSuccessState s batch t1, none)

/-- The state reached by the failure branch of trySendQueued before the
emission check (lines 1059-1064): log the batch, bump the fail count
saturating at 6, back off from the bumped fail count (line 1060 updates
`failCount` before line 1061 reads it), bump the error counter, and
markIngestErr with `String(code)`. -/
def ingestFailureState (s : NodeState) (code : Int) (batch t1 jitter : Nat) :
    NodeState :=
  markIngestErr
    { s with queue := logLoop s.queue batch,
             failCount := min (s.failCount + 1) 6,
             nextSendAtMs := t1 + computeBackoffMs (min (s.failCount + 1) 6) jitter,
             ingestErrCount := s.ingestErrCount + 1 }
    (toString code) t1

/-- The failure branch of trySendQueued (lines 1058-1069), emission check
included. -/
def ingestFailure (s : NodeState) (code : Int) (batch ms t1 jitter : Nat) :
    NodeState × Option String :=
  if (ingestFailureState s code batch t1 jitter).lastIngestErr.length = 0 ∨
      (ingestFailureState s code batch t1 jitter).lastIngestErr ≠ toString code ∨
      t1 - (ingestFailureState s code batch t1 jitter).lastIngestErrEventMs >
        60000 then
    (emitIngestErr (ingestFailureState s code batch t1 jitter) (toString code)
      ms t1, some "ingest.err")
  else (ingestFailureState s code batch t1 jitter, none)

/-- trySendQueued (lines 1014-1070).  Inputs record the environment of the
call: `connected` is `WiFi.isConnected()`, `code` the `http.POST` result
(negative on timeout/transport error), `t0` the `millis()` value at entry
(where the guard and POST start are read), `t1` the `millis()` value after
the POST returns, and `jitter` the `random(0,1000)` draw of
`computeBackoffMs`.  The second component reports which of `emitIngestOk` /
`emitIngestErr` ran (`none` when neither did); the C++ returns void and this
component only names the reached branch. -/
def trySendQueued (s : NodeState) (connected : Bool) (code : Int)
    (t0 t1 jitter : Nat) : NodeState × Option String :=
  if s.queue.count = 0 then (s, none)
  else if t0 < s.nextSendAtMs then (s, none)
  else if !connected then (ingestOffline s t0 jitter, none)
  else
    let batch := min s.queue.count INGEST_BATCH_SIZE
    let ms := t1 - t0
    if 200 ≤ code ∧ code < 300 then ingestSuccess s batch ms t1
    else ingestFailure s code batch ms t1 jitter

/-! ## BLE dedup ring and advertisement callback (main.cpp lines 1078-1162) -/

/-- The `for (i = 0; i < bleRingCount; i++)` lookup of recordBleObservation
(lines 1081-1102): scan most-recent-first, skipping slots with an empty MAC,
and return the ring index of the first entry matching MAC + adv flags.
`i` is the current loop index, the last argument the remaining iterations. -/
def ringScanFrom (ring : List BleObservation) (head : Nat) (mac : String)
    (advFlags : Nat) : Nat → Nat → Option Nat
  | _, 0 => none
  | i, r + 1 =>
    let idx := (head + BLE_OBS_CAPACITY - 1 - i) % BLE_OBS_CAPACITY
    let obs := ring.getD idx default
    if obs.mac.length = 0 then ringScanFrom ring head mac advFlags (i + 1) r
    else if bleMatches obs mac advFlags then some idx
    else ringScanFrom ring head mac advFlags (i + 1) r

/-- recordBleObservation (lines 1078-1119): refresh a matching entry (partial
refresh inside the dedup window, full refresh outside it), or insert at the
head slot, bumping the overwrite counter when the ring is at capacity. -/
def recordBleObservation (s : NodeState) (now : Nat) (mac name : String)
    (rssi : Int) (svcCount mfgLen advFlags : Nat) : NodeState :=
  match ringScanFrom s.bleRing s.bleRingHead mac advFlags 0 s.bleRingCount with
  | some idx =>
    if now - (s.bleRing.getD idx default).lastSeenMs ≤ BLE_DEDUPE_MS then
      { s with
        bleRing := s.bleRing.set idx
          { s.bleRing.getD idx default with
            rssi := rssi, lastSeenMs := now,
            seenCount := (s.bleRing.getD idx default).seenCount + 1 },
        bleDedupeCount := s.bleDedupeCount + 1 }
    else
      { s with
        bleRing := s.bleRing.set idx
          { s.bleRing.getD idx default with
            rssi := rssi, name := name, svcCount := svcCount, mfgLen := mfgLen,
            advFlags := advFlags, lastSeenMs := now,
            seenCount := (s.bleRing.getD idx default).seenCount + 1 } }
  | none =>
    if s.bleRingCount = BLE_OBS_CAPACITY then
      { s with bleRingOverwriteCount := s.bleRingOverwriteCount + 1,
               bleRing := s.bleRing.set s.bleRingHead
                 ⟨mac, name, rssi, mfgLen, svcCount, advFlags, now, 1⟩,
               bleRingHead := (s.bleRingHead + 1) % BLE_OBS_CAPACITY }
    else
      { s with bleRingCount := s.bleRingCount + 1,
               bleRing := s.bleRing.set s.bleRingHead
                 ⟨mac, name, rssi, mfgLen, svcCount, advFlags, now, 1⟩,
               bleRingHead := (s.bleRingHead + 1) % BLE_OBS_CAPACITY }

/-- The entry of AdvertisedCallback::onResult (lines 1123-1128): record the
callback time and reset the one-second window when at least 1000 ms have
elapsed since its start. -/
def bleWindowStep (s : NodeState) (now : Nat) : NodeState :=
  if now - s.bleSecondStart ≥ 1000 then
    { s with lastBleResultMs := now, bleSecondStart := now,
             bleCountThisSecond := 0 }
  else { s with lastBleResultMs := now }

/-- The emitting tail of AdvertisedCallback::onResult (lines 1132-1160):
bump the per-second and total counters, update the dedup ring, then build
and enqueue the ble.seen event. -/
def bleEmit (s : NodeState) (now : Nat) (mac name : String) (rssi : Int)
    (svcCount mfgLen advFlags : Nat) (addrType : String) : NodeState :=
  enqueueEvent
    (buildEvent
      (recordBleObservation
        { s with bleCountThisSecond := s.bleCountThisSecond + 1,
                 bleSeenCount := s.bleSeenCount + 1 }
        now mac name rssi svcCount mfgLen advFlags)
      "ble.seen"
      ("\x7b" ++ jsonKV "addr" mac true
        ++ "," ++ jsonKV "rssi" (toString rssi) false
        ++ "," ++ jsonKV "addr_type" addrType true
        ++ "," ++ jsonKV "flags" (toString advFlags) false ++ "\x7d")
      (jsonKV "mac" mac true ++ "," ++ jsonKV "rssi" (toString rssi) false)
      now).2
    (buildEvent
      (recordBleObservation
        { s with bleCountThisSecond := s.bleCountThisSecond + 1,
                 bleSeenCount := s.bleSeenCount + 1 }
        now mac name rssi svcCount mfgLen advFlags)
      "ble.seen"
      ("\x7b" ++ jsonKV "addr" mac true
        ++ "," ++ jsonKV "rssi" (toString rssi) false
        ++ "," ++ jsonKV "addr_type" addrType true
        ++ "," ++ jsonKV "flags" (toString advFlags) false ++ "\x7d")
      (jsonKV "mac" mac true ++ "," ++ jsonKV "rssi" (toString rssi) false)
      now).1

/-- AdvertisedCallback::onResult (lines 1122-1161).  Inputs are the fields
read off the NimBLE advertisement (the MAC is already lowercased, `addrType`
already stringified) and `now` the `millis()` read at entry.  The Bool
records whether the callback survived the per-second gate: in the source,
surviving it always ends in `enqueueEvent(buildEvent("ble.seen", ...))`. -/
def onResult (s : NodeState) (now : Nat) (mac name : String) (rssi : Int)
    (svcCount mfgLen advFlags : Nat) (addrType : String) : NodeState × Bool :=
  if (bleWindowStep s now).bleCountThisSecond ≥ BLE_MAX_PER_SECOND then
    (bleWindowStep s now, false)
  else
    (bleEmit (bleWindowStep s now) now mac name rssi svcCount mfgLen advFlags
      addrType, true)

/-- One advertisement arriving at the callback: its `millis()` timestamp and
the advertised fields. -/
structure BleAdv where
  now : Nat
  mac : String
  name : String
  rssi : Int
  svcCount : Nat
  mfgLen : Nat
  advFlags : Nat
  addrType : String
deriving DecidableEq

/-- Run a sequence of advertisement callbacks, collecting the `millis()`
timestamps of the callbacks that emitted a `ble.seen` event. -/
def runBle : NodeState → List BleAdv → NodeState × List Nat
  | s, [] => (s, [])
  | s, a :: rest =>
    let r := onResult s a.now a.mac a.name a.rssi a.svcCount a.mfgLen
      a.advFlags a.addrType
    let r2 := runBle r.1 rest
    (r2.1, if r.2 then a.now :: r2.2 else r2.2)

/-! ## Emission / pop traces for the sequence-number invariant -/

/-- One request to build-and-enqueue an event, as every
`enqueueEvent(buildEvent(type, data, extra))` call site performs. -/
structure EmitReq where
  type : String
  data : String
  extra : String
  ts : Nat
deriving DecidableEq

/-- Operations that touch the event queue within a boot: an emission (build
plus checked admission) or a pop from the ingest client. -/
inductive NodeOp where
  | emit (r : EmitReq)
  | popQ
deriving DecidableEq

/-- Run node operations, collecting the sequence numbers of the events that
were admitted to the queue, in admission order. -/
def runNodeOps : NodeState → List NodeOp → NodeState × List Nat
  | s, [] => (s, [])
  | s, NodeOp.emit r :: rest =>
    let b := buildEvent s r.type r.data r.extra r.ts
    let e := enqueueEventChecked b.2 b.1
    let k := runNodeOps e.1 rest
    (k.1, if e.2 then b.2.eventSeq :: k.2 else k.2)
  | s, NodeOp.popQ :: rest =>
    runNodeOps { s with queue := s.queue.pop } rest

/-! ## Wi-Fi station manager (main.cpp lines 241-248, 850-900, 1249-1258) -/

/-- The Wi-Fi-related globals touched by the disconnect and connect-timeout
paths. -/
structure WifiSt where
  wifiFailCount : Nat
  nextWifiAttemptMs : Nat
  wifiState : String
  lastDisconnectReason : Int
  wifiConnectStartMs : Nat
  statusEmits : Nat
deriving DecidableEq

/-- handleWifiEvent, STA-disconnected branch (lines 872-880).  `now` is the
`millis()` read and `jitter` the `random(0,1000)` draw inside
computeWifiBackoffMs; `emitWifiStatus()` only enqueues a `wifi.status` event
(tracked here by `statusEmits`). -/
def handleWifiDisconnect (w : WifiSt) (reason : Int) (now jitter : Nat) : WifiSt :=
  let w1 := { w with lastDisconnectReason := reason,
                     wifiState := "backoff",
                     wifiFailCount := min (w.wifiFailCount + 1) 6 }
  let w2 := { w1 with
              nextWifiAttemptMs := now + computeWifiBackoffMs w1.wifiFailCount jitter,
              wifiConnectStartMs := 0 }
  { w2 with statusEmits := w2.statusEmits + 1 }

/-- The connect-timeout branch of loop() (lines 1249-1258); `connected` is
`WiFi.isConnected()`.  `WiFi.disconnect()` has no counterpart in this state. -/
def loopConnectTimeout (w : WifiSt) (connected : Bool) (now jitter : Nat) : WifiSt :=
  if w.wifiState == "connecting" && !connected && decide (0 < w.wifiConnectStartMs) &&
      decide (now - w.wifiConnectStartMs > WIFI_CONNECT_TIMEOUT_MS) then
    let w1 := { w with wifiFailCount := min (w.wifiFailCount + 1) 6 }
    let w2 := { w1 with
                nextWifiAttemptMs := now + computeWifiBackoffMs w1.wifiFailCount jitter,
                wifiState := "backoff",
                wifiConnectStartMs := 0 }
    { w2 with statusEmits := w2.statusEmits + 1 }
  else w

/-! ## Captive portal save handler (main.cpp lines 454-468) -/

/-- Persisted `wifi` preferences namespace. -/
structure Prefs where
  ssid : String
  pass : String
deriving DecidableEq

/-- Observable actions performed by handlePortalSave, in program order. -/
inductive PortalAction where
  | sendResp (code : Nat) (contentType body : String)
  | prefsPut (ns key value : String)
  | reboot
deriving DecidableEq

/-- handlePortalSave (lines 454-468): empty SSID gets a 400 and nothing else;
otherwise persist both fields, acknowledge with a 200 and reboot. -/
def handlePortalSave (ssid pass : String) (p : Prefs) : Prefs × List PortalAction :=
  if ssid.length = 0 then
    (p, [PortalAction.sendResp 400 "text/plain" "SSID required"])
  else
    ({ ssid := ssid, pass := pass },
     [PortalAction.prefsPut "wifi" "ssid" ssid,
      PortalAction.prefsPut "wifi" "pass" pass,
      PortalAction.sendResp 200 "text/plain" "Saved. Rebooting...",
      PortalAction.reboot])

/-! ## Concrete states used to evaluate the development on explicit inputs -/

/-- Boot state with one event string already queued. -/
def oneQueuedState : NodeState := { bootState with queue := (bootState.queue.push "x").1 }

/-- A well-formed event string, as the builder would admit. -/
def sampleEventJson : String := (buildEvent bootState "node.boot" "\x7b\x7d" "" 0).1

/-- A node state whose queue is full: EVENT_QUEUE_CAPACITY entries. -/
def fullQueueState : NodeState :=
  { bootState with queue :=
      ⟨EVENT_QUEUE_CAPACITY, List.replicate EVENT_QUEUE_CAPACITY ⟨"e", false⟩,
       0, 0, EVENT_QUEUE_CAPACITY⟩ }

/-- A small well-formed queue holding one entry. -/
def smallQueue : EvQueue := ⟨2, [⟨"a", false⟩, ⟨"b", false⟩], 0, 1, 1⟩

/-- The same BLE advertisement delivered twice, 1 ms apart. -/
def bleTwice1 : NodeState × Bool :=
  onResult bootState 5 "aa:bb:cc:dd:ee:ff" "" (-55) 0 0 6 "public"

def bleTwice2 : NodeState × Bool :=
  onResult bleTwice1.1 6 "aa:bb:cc:dd:ee:ff" "" (-55) 0 0 6 "public"

/-- A flood of twenty advertisements: ten arriving at t = 999 ms and ten at
t = 1000 ms, all inside the sliding 1000 ms window [999, 1999). -/
def floodAdvs : List BleAdv :=
  List.replicate 10 ⟨999, "aa", "", 0, 0, 0, 0, "public"⟩ ++
  List.replicate 10 ⟨1000, "aa", "", 0, 0, 0, 0, "public"⟩

/-- A Wi-Fi manager state mid-association. -/
def wifiConnecting : WifiSt := ⟨0, 0, "connecting", -1, 5, 0⟩

/-- The node state left behind by the flood: per-second counter at the cap,
window started at t = 1000 ms. -/
def floodedState : NodeState := (runBle bootState floodAdvs).1

/-- Twelve advertisements all arriving at t = 7 ms, inside the boot
window. -/
def smallAdvs : List BleAdv :=
  List.replicate 12 ⟨7, "aa", "", 0, 0, 0, 0, "public"⟩

/-- A short operation trace for the sequence-number invariant. -/
def seqOpsSample : List NodeOp :=
  [NodeOp.emit ⟨"node.heartbeat", "\x7b\x7d", "", 3⟩, NodeOp.popQ,
   NodeOp.emit ⟨"wifi.status", "\x7b\x7d", "", 9⟩]

/-! ## Helper lemmas: substring containment -/

theorem hasPfx_append {n l : List Char} (t : List Char) (h : hasPfx n l = true) :
    hasPfx n (l ++ t) = true := by
  induction n generalizing l with
  | nil => simp [hasPfx]
  | cons a as ih =>
    cases l with
    | nil => simp [hasPfx] at h
    | cons b bs =>
      simp only [hasPfx, Bool.and_eq_true] at h ⊢
      exact ⟨h.1, ih h.2⟩

theorem hasSub_append_left {n h : List Char} (t : List Char)
    (hh : hasSub n h = true) : hasSub n (h ++ t) = true := by
  induction h with
  | nil =>
    simp [hasSub, List.isEmpty_iff] at hh
    subst hh
    cases t <;> simp [hasSub, hasPfx, List.isEmpty_iff]
  | cons c rest ih =>
    simp only [hasSub, Bool.or_eq_true] at hh ⊢
    rcases hh with hp | hs
    · exact Or.inl (by
        have := @hasPfx_append n (c :: rest) t hp
        simpa using this)
    · exact Or.inr (ih hs)

theorem hasSub_append_right {n t : List Char} (h : List Char)
    (ht : hasSub n t = true) : hasSub n (h ++ t) = true := by
  induction h with
  | nil => simpa using ht
  | cons c rest ih =>
    simp only [List.cons_append, hasSub, Bool.or_eq_true]
    exact Or.inr ih

theorem str_data_append (a b : String) : (a ++ b).data = a.data ++ b.data := rfl

theorem strHas_append_left {a : String} (b : String) {n : String}
    (h : strHas a n = true) : strHas (a ++ b) n = true := by
  unfold strHas at h ⊢
  rw [str_data_append]
  exact hasSub_append_left _ h

theorem strHas_append_right (a : String) {b n : String}
    (h : strHas b n = true) : strHas (a ++ b) n = true := by
  unfold strHas at h ⊢
  rw [str_data_append]
  exact hasSub_append_right _ h

/-- Every string produced by the event builder passes isValidEventJson: all
six required keys occur in it literally. -/
theorem buildEventJson_valid (nodeId type dataJson extraJson : String)
    (ts seq : Nat) :
    isValidEventJson (buildEventJson nodeId type dataJson extraJson ts seq) = true := by
  unfold buildEventJson
  have hv : strHas ("\x7b" ++ jsonKV "v" (toString EVENT_SCHEMA_VERSION) false)
      "\"v\"" = true := by decide
  have hts : ∀ x : String, strHas ("," ++ jsonKV "ts_ms" x false) "\"ts_ms\"" = true := by
    intro x
    apply strHas_append_right
    unfold jsonKV
    apply strHas_append_left
    decide
  have hnode : ∀ x : String, strHas ("," ++ jsonKV "node_id" x true) "\"node_id\"" = true := by
    intro x
    apply strHas_append_right
    unfold jsonKV
    apply strHas_append_left
    apply strHas_append_left
    decide
  have htype : ∀ x : String, strHas ("," ++ jsonKV "type" x true) "\"type\"" = true := by
    intro x
    apply strHas_append_right
    unfold jsonKV
    apply strHas_append_left
    apply strHas_append_left
    decide
  have hsrc : ∀ x : String, strHas ("," ++ jsonKV "src" x true) "\"src\"" = true := by
    intro x
    apply strHas_append_right
    unfold jsonKV
    apply strHas_append_left
    apply strHas_append_left
    decide
  have hdata : ∀ x : String, strHas (",\"data\":" ++ x) "\"data\"" = true := by
    intro x
    apply strHas_append_left
    decide
  simp only [isValidEventJson, Bool.and_eq_true]
  refine ⟨⟨⟨⟨⟨?_, ?_⟩, ?_⟩, ?_⟩, ?_⟩, ?_⟩
  · apply strHas_append_left
    apply strHas_append_left
    apply strHas_append_left
    apply strHas_append_left
    apply strHas_append_left
    apply strHas_append_left
    apply strHas_append_left
    apply strHas_append_left
    exact hv
  · apply strHas_append_left
    apply strHas_append_left
    apply strHas_append_left
    apply strHas_append_left
    apply strHas_append_left
    apply strHas_append_left
    apply strHas_append_left
    apply strHas_append_right
    exact hts _
  · apply strHas_append_left
    apply strHas_append_left
    apply strHas_append_left
    apply strHas_append_left
    apply strHas_append_left
    apply strHas_append_left
    apply strHas_append_right
    exact hnode _
  · apply strHas_append_left
    apply strHas_append_left
    apply strHas_append_left
    apply strHas_append_left
    apply strHas_append_left
    apply strHas_append_right
    exact htype _
  · apply strHas_append_left
    apply strHas_append_left
    apply strHas_append_left
    apply strHas_append_left
    apply strHas_append_right
    exact hsrc _
  · apply strHas_append_left
    apply strHas_append_right
    exact hdata _

theorem buildEvent_valid (s : NodeState) (type dataJson extraJson : String)
    (ts : Nat) :
    isValidEventJson (buildEvent s type dataJson extraJson ts).1 = true := by
  unfold buildEvent
  exact buildEventJson_valid ..

/-! ## Helper lemmas: list updates and modular index arithmetic -/

theorem getD_set_self {α : Type} (l : List α) (i : Nat) (a d : α)
    (h : i < l.length) : (l.set i a).getD i d = a := by
  induction l generalizing i with
  | nil => simp at h
  | cons x xs ih =>
    cases i with
    | zero => simp [List.set, List.getD]
    | succ k =>
      simp only [List.set, List.getD_cons_succ]
      exact ih k (by simpa using h)

theorem getD_set_ne {α : Type} (l : List α) (i j : Nat) (a d : α)
    (hne : i ≠ j) : (l.set i a).getD j d = l.getD j d := by
  induction l generalizing i j with
  | nil => simp [List.set]
  | cons x xs ih =>
    cases i with
    | zero =>
      cases j with
      | zero => exact absurd rfl hne
      | succ k => simp [List.set, List.getD_cons_succ]
    | succ m =>
      cases j with
      | zero => simp [List.set, List.getD]
      | succ k =>
        simp only [List.set, List.getD_cons_succ]
        exact ih m k (fun hc => hne (by omega))

theorem mod_inj_off {c h i j : Nat} (hi : i < c) (hj : j < c)
    (heq : (h + i) % c = (h + j) % c) : i = j := by
  have hmod : Nat.ModEq c (h + i) (h + j) := heq
  have h2 : Nat.ModEq c i j := Nat.ModEq.add_left_cancel' h hmod
  have hij : i % c = j % c := h2
  rwa [Nat.mod_eq_of_lt hi, Nat.mod_eq_of_lt hj] at hij

/-! ## Helper lemmas: queue operations -/

theorem EvQueue.pop_of_empty {q : EvQueue} (h : q.count = 0) : q.pop = q := by
  unfold EvQueue.pop
  simp [h]

theorem EvQueue.pop_of_nonempty {q : EvQueue} (h : q.count ≠ 0) :
    q.pop = { q with head := (q.head + 1) % q.capacity, count := q.count - 1 } := by
  unfold EvQueue.pop
  simp [h]

theorem EvQueue.push_of_full {q : EvQueue} (j : String) (h : q.capacity ≤ q.count) :
    q.push j = (q, false) := by
  unfold EvQueue.push
  simp [Nat.le_of_lt, h]

theorem EvQueue.push_of_not_full {q : EvQueue} (j : String) (h : q.count < q.capacity) :
    q.push j = ({ q with buffer := q.buffer.set q.tail ⟨j, false⟩,
                         tail := (q.tail + 1) % q.capacity,
                         count := q.count + 1 }, true) := by
  unfold EvQueue.push
  have : ¬ q.count ≥ q.capacity := by omega
  simp [this]

theorem EvQueue.WF_pop {q : EvQueue} (h : q.WF) : q.pop.WF := by
  obtain ⟨hlen, hhead, hcount, htail⟩ := h
  by_cases hc : q.count = 0
  · rw [EvQueue.pop_of_empty hc]
    exact ⟨hlen, hhead, hcount, htail⟩
  · rw [EvQueue.pop_of_nonempty hc]
    have hcap : 0 < q.capacity := Nat.lt_of_le_of_lt (Nat.zero_le _) hhead
    refine ⟨hlen, Nat.mod_lt _ hcap, Nat.le_trans (Nat.sub_le _ _) hcount, ?_⟩
    show q.tail = ((q.head + 1) % q.capacity + (q.count - 1)) % q.capacity
    rw [Nat.mod_add_mod, htail]
    congr 1
    omega

theorem EvQueue.WF_push {q : EvQueue} (j : String) (h : q.WF) : (q.push j).1.WF := by
  obtain ⟨hlen, hhead, hcount, htail⟩ := h
  by_cases hc : q.count < q.capacity
  · rw [EvQueue.push_of_not_full j hc]
    refine ⟨?_, hhead, Nat.succ_le_of_lt hc, ?_⟩
    · show (q.buffer.set q.tail ⟨j, false⟩).length = q.capacity
      simpa using hlen
    · show (q.tail + 1) % q.capacity = (q.head + (q.count + 1)) % q.capacity
      rw [htail, Nat.mod_add_mod]
      congr 1
  · rw [EvQueue.push_of_full j (by omega)]
    exact ⟨hlen, hhead, hcount, htail⟩

theorem EvQueue.push_capacity (q : EvQueue) (j : String) :
    (q.push j).1.capacity = q.capacity := by
  unfold EvQueue.push
  split <;> rfl

theorem EvQueue.pop_capacity (q : EvQueue) : q.pop.capacity = q.capacity := by
  unfold EvQueue.pop
  split <;> rfl

theorem EvQueue.push_count_le {q : EvQueue} (j : String)
    (h : q.count ≤ q.capacity) : (q.push j).1.count ≤ q.capacity := by
  unfold EvQueue.push
  split
  · exact h
  · show q.count + 1 ≤ q.capacity
    omega

theorem EvQueue.pop_count_le (q : EvQueue) : q.pop.count ≤ q.count := by
  unfold EvQueue.pop
  split
  · exact Nat.le_refl _
  · show q.count - 1 ≤ q.count
    omega

theorem runQOps_capacity (q : EvQueue) (ops : List QOp) :
    (runQOps q ops).capacity = q.capacity := by
  induction ops generalizing q with
  | nil => rfl
  | cons op rest ih =>
    cases op with
    | push j =>
      show (runQOps (q.push j).1 rest).capacity = q.capacity
      rw [ih, EvQueue.push_capacity]
    | pop =>
      show (runQOps q.pop rest).capacity = q.capacity
      rw [ih, EvQueue.pop_capacity]

theorem runQOps_count_le {q : EvQueue} (ops : List QOp)
    (h : q.count ≤ q.capacity) : (runQOps q ops).count ≤ q.capacity := by
  induction ops generalizing q with
  | nil => exact h
  | cons op rest ih =>
    cases op with
    | push j =>
      show (runQOps (q.push j).1 rest).count ≤ q.capacity
      rw [← EvQueue.push_capacity q j]
      apply ih
      rw [EvQueue.push_capacity]
      exact EvQueue.push_count_le j h
    | pop =>
      show (runQOps q.pop rest).count ≤ q.capacity
      rw [← EvQueue.pop_capacity q]
      apply ih
      rw [EvQueue.pop_capacity]
      exact Nat.le_trans (EvQueue.pop_count_le q) h

theorem EvQueue.absQ_pop {q : EvQueue} (hc : q.count ≠ 0) :
    q.pop.absQ = q.absQ.tail := by
  rw [EvQueue.pop_of_nonempty hc]
  obtain ⟨k, hk⟩ : ∃ k, q.count = k + 1 := ⟨q.count - 1, by omega⟩
  unfold EvQueue.absQ EvQueue.atIdx
  simp only [hk, Nat.add_sub_cancel, List.range_succ_eq_map, List.map_cons,
    List.tail_cons, List.map_map]
  apply List.map_congr_left
  intro i _
  simp only [Function.comp]
  congr 1
  rw [Nat.mod_add_mod]
  congr 1
  omega

theorem EvQueue.absQ_push {q : EvQueue} (j : String) (hwf : q.WF)
    (hc : q.count < q.capacity) :
    (q.push j).1.absQ = q.absQ ++ [⟨j, false⟩] := by
  obtain ⟨hlen, hhead, hcount, htail⟩ := hwf
  have hcap : 0 < q.capacity := Nat.lt_of_le_of_lt (Nat.zero_le _) hhead
  rw [EvQueue.push_of_not_full j hc]
  unfold EvQueue.absQ EvQueue.atIdx
  simp only [List.range_succ, List.map_append, List.map_cons, List.map_nil]
  congr 1
  · apply List.map_congr_left
    intro i hi
    have hi' : i < q.count := List.mem_range.mp hi
    show (q.buffer.set q.tail ⟨j, false⟩).getD ((q.head + i) % q.capacity) _ =
      q.buffer.getD ((q.head + i) % q.capacity) _
    apply getD_set_ne
    intro he
    rw [htail] at he
    have : q.count = i := mod_inj_off hc (by omega) he
    omega
  · show [(q.buffer.set q.tail ⟨j, false⟩).getD ((q.head + q.count) % q.capacity) _] = _
    rw [← htail]
    rw [getD_set_self]
    rw [hlen, htail]
    exact Nat.mod_lt _ hcap

theorem EvQueue.pop_count {q : EvQueue} (hc : q.count ≠ 0) :
    q.pop.count = q.count - 1 := by
  rw [EvQueue.pop_of_nonempty hc]

theorem EvQueue.absQ_popN {b : Nat} : ∀ {q : EvQueue}, q.WF → b ≤ q.count →
    (popN q b).absQ = q.absQ.drop b := by
  induction b with
  | zero => intro q _ _; simp [popN]
  | succ n ih =>
    intro q hwf hb
    have hc : q.count ≠ 0 := by omega
    show (popN q.pop n).absQ = q.absQ.drop (n + 1)
    rw [ih (EvQueue.WF_pop hwf) (by rw [EvQueue.pop_count hc]; omega),
      EvQueue.absQ_pop hc, ← List.drop_one, List.drop_drop, Nat.add_comm]

theorem EvQueue.WF_popN {b : Nat} : ∀ {q : EvQueue}, q.WF → (popN q b).WF := by
  induction b with
  | zero => intro q hwf; exact hwf
  | succ n ih => intro q hwf; exact ih (EvQueue.WF_pop hwf)

theorem popN_count {b : Nat} : ∀ {q : EvQueue}, b ≤ q.count →
    (popN q b).count = q.count - b := by
  induction b with
  | zero => intro q _; rfl
  | succ n ih =>
    intro q hb
    have hc : q.count ≠ 0 := by omega
    show (popN q.pop n).count = q.count - (n + 1)
    rw [ih (by rw [EvQueue.pop_count hc]; omega), EvQueue.pop_count hc]
    omega

/-- The event-payload view of the queue, what the ingest client sends. -/
def qJsons (q : EvQueue) : List String := q.absQ.map (fun e => e.json)

theorem setEntryLogged_capacity (q : EvQueue) (i : Nat) :
    (setEntryLogged q i).capacity = q.capacity := rfl

theorem setEntryLogged_head (q : EvQueue) (i : Nat) :
    (setEntryLogged q i).head = q.head := rfl

theorem setEntryLogged_count (q : EvQueue) (i : Nat) :
    (setEntryLogged q i).count = q.count := rfl

theorem setEntryLogged_tail (q : EvQueue) (i : Nat) :
    (setEntryLogged q i).tail = q.tail := rfl

theorem EvQueue.WF_setEntryLogged {q : EvQueue} (i : Nat) (hwf : q.WF) :
    (setEntryLogged q i).WF := by
  obtain ⟨hlen, hhead, hcount, htail⟩ := hwf
  unfold setEntryLogged
  exact ⟨by simpa using hlen, hhead, hcount, htail⟩

theorem qJsons_setEntryLogged {q : EvQueue} (i : Nat) (hwf : q.WF) :
    qJsons (setEntryLogged q i) = qJsons q := by
  obtain ⟨hlen, hhead, hcount, htail⟩ := hwf
  have hcap : 0 < q.capacity := Nat.lt_of_le_of_lt (Nat.zero_le _) hhead
  unfold qJsons EvQueue.absQ EvQueue.atIdx setEntryLogged
  simp only [List.map_map]
  apply List.map_congr_left
  intro k _
  simp only [Function.comp]
  by_cases he : (q.head + i) % q.capacity = (q.head + k) % q.capacity
  · rw [← he, getD_set_self]
    · rw [hlen]
      exact Nat.mod_lt _ hcap
  · rw [getD_set_ne _ _ _ _ _ he]

theorem EvQueue.WF_logLoop {q : EvQueue} (b : Nat) (hwf : q.WF) :
    (logLoop q b).WF := by
  induction b with
  | zero => exact hwf
  | succ n ih => exact EvQueue.WF_setEntryLogged n ih

theorem qJsons_logLoop {q : EvQueue} (b : Nat) (hwf : q.WF) :
    qJsons (logLoop q b) = qJsons q := by
  induction b with
  | zero => rfl
  | succ n ih =>
    show qJsons (setEntryLogged (logLoop q n) n) = qJsons q
    rw [qJsons_setEntryLogged n (EvQueue.WF_logLoop n hwf), ih]

/-! ## Helper lemmas: checked admission -/

theorem enqueueEventChecked_cases (s : NodeState) (j : String) :
    (enqueueEventChecked s j =
        ({ s with eventInvalidCount := s.eventInvalidCount + 1 }, false) ∧
      isValidEventJson j = false) ∨
    (enqueueEventChecked s j =
        ({ s with eventDropCount := s.eventDropCount + 1 }, false) ∧
      isValidEventJson j = true ∧ s.queue.capacity ≤ s.queue.count) ∨
    (enqueueEventChecked s j = ({ s with queue := (s.queue.push j).1 }, true) ∧
      isValidEventJson j = true ∧ s.queue.count < s.queue.capacity) := by
  unfold enqueueEventChecked
  by_cases hv : isValidEventJson j
  · by_cases hf : s.queue.capacity ≤ s.queue.count
    · refine Or.inr (Or.inl ⟨?_, hv, hf⟩)
      rw [EvQueue.push_of_full j hf]
      simp [hv]
    · refine Or.inr (Or.inr ⟨?_, hv, by omega⟩)
      rw [EvQueue.push_of_not_full j (by omega)]
      simp [hv]
  · refine Or.inl ⟨?_, by simpa using hv⟩
    simp [hv]

theorem enqueueEventChecked_preserves (s : NodeState) (j : String) :
    (enqueueEventChecked s j).1.failCount = s.failCount ∧
    (enqueueEventChecked s j).1.eventSeq = s.eventSeq ∧
    (enqueueEventChecked s j).1.lastIngestErr = s.lastIngestErr ∧
    (enqueueEventChecked s j).1.lastIngestOkEventMs = s.lastIngestOkEventMs ∧
    (enqueueEventChecked s j).1.lastIngestErrEventMs = s.lastIngestErrEventMs ∧
    (enqueueEventChecked s j).1.bleRing = s.bleRing ∧
    (enqueueEventChecked s j).1.bleRingCount = s.bleRingCount ∧
    (enqueueEventChecked s j).1.bleRingHead = s.bleRingHead ∧
    (enqueueEventChecked s j).1.bleRingOverwriteCount = s.bleRingOverwriteCount ∧
    (enqueueEventChecked s j).1.bleDedupeCount = s.bleDedupeCount ∧
    (enqueueEventChecked s j).1.bleSeenCount = s.bleSeenCount ∧
    (enqueueEventChecked s j).1.bleSecondStart = s.bleSecondStart ∧
    (enqueueEventChecked s j).1.bleCountThisSecond = s.bleCountThisSecond ∧
    (enqueueEventChecked s j).1.lastBleResultMs = s.lastBleResultMs := by
  rcases enqueueEventChecked_cases s j with ⟨he, _⟩ | ⟨he, _⟩ | ⟨he, _⟩ <;>
    rw [he] <;> exact ⟨rfl, rfl, rfl, rfl, rfl, rfl, rfl, rfl, rfl, rfl, rfl,
      rfl, rfl, rfl⟩

theorem enqueueEventChecked_qJsons (s : NodeState) (j : String)
    (hwf : s.queue.WF) :
    ∃ rest, qJsons (enqueueEventChecked s j).1.queue = qJsons s.queue ++ rest ∧
      rest.length ≤ 1 ∧ (enqueueEventChecked s j).1.queue.WF := by
  rcases enqueueEventChecked_cases s j with ⟨he, _⟩ | ⟨he, _, _⟩ | ⟨he, _, hlt⟩
  · exact ⟨[], by rw [he]; simp, by simp, by rw [he]; exact hwf⟩
  · exact ⟨[], by rw [he]; simp, by simp, by rw [he]; exact hwf⟩
  · refine ⟨[j], ?_, by simp, ?_⟩
    · rw [he]
      show qJsons (s.queue.push j).1 = qJsons s.queue ++ [j]
      unfold qJsons
      rw [EvQueue.absQ_push j hwf hlt]
      simp
    · rw [he]
      exact EvQueue.WF_push j hwf

theorem enqueueEvent_qJsons (s : NodeState) (j : String) (hwf : s.queue.WF) :
    ∃ rest, qJsons (enqueueEvent s j).queue = qJsons s.queue ++ rest ∧
      rest.length ≤ 1 ∧ (enqueueEvent s j).queue.WF :=
  enqueueEventChecked_qJsons s j hwf

/-! ## Helper lemmas: exponential backoff -/

theorem doubleClamp_eq {m : Nat} : ∀ (n base : Nat), base ≤ m →
    doubleClamp m base n = min (base * 2 ^ n) m := by
  intro n
  induction n with
  | zero =>
    intro base hb
    simp [doubleClamp, Nat.min_eq_left hb]
  | succ k ih =>
    intro base hb
    show doubleClamp m (min (base * 2) m) k = min (base * 2 ^ (k + 1)) m
    rw [ih _ (Nat.min_le_right _ _)]
    by_cases h2 : base * 2 ≤ m
    · rw [Nat.min_eq_left h2]
      congr 1
      rw [Nat.pow_succ]
      ring
    · have hp : 0 < 2 ^ k := Nat.two_pow_pos k
      have h1 : m ≤ m * 2 ^ k := Nat.le_mul_of_pos_right m hp
      have h2' : m ≤ base * 2 ^ (k + 1) := by
        calc m ≤ base * 2 := by omega
          _ ≤ base * 2 * 2 ^ k := Nat.le_mul_of_pos_right _ hp
          _ = base * 2 ^ (k + 1) := by rw [Nat.pow_succ]; ring
      have hinner : min (base * 2) m = m := Nat.min_eq_right (by omega)
      rw [hinner, Nat.min_eq_right h1, Nat.min_eq_right h2']

/-! ## Claim theorems -/

/-- C9: calling pop() on an empty event queue is a no-op, the queue size
stays within [0, capacity] under every sequence of push and pop operations,
and front()/at(i) with i < size address entries in FIFO order (pop takes the
oldest entry, push appends the newest, at(i) reads the i-th oldest) at
indices inside the allocated buffer. -/
theorem c9_pop_empty_noop_and_fifo (q : EvQueue) (hwf : q.WF) :
    (q.count = 0 → q.pop = q) ∧
    (∀ ops : List QOp, (runQOps q ops).count ≤ q.capacity) ∧
    (q.count ≠ 0 → q.pop.absQ = q.absQ.tail) ∧
    (∀ j, q.count < q.capacity → (q.push j).1.absQ = q.absQ ++ [⟨j, false⟩]) ∧
    (∀ i, i < q.count → q.atIdx i = q.absQ.getD i ⟨"", false⟩ ∧
      (q.head + i) % q.capacity < q.buffer.length) ∧
    q.front = q.atIdx 0 := by
  obtain ⟨hlen, hhead, hcount, htail⟩ := hwf
  have hcap : 0 < q.capacity := Nat.lt_of_le_of_lt (Nat.zero_le _) hhead
  refine ⟨fun hc => EvQueue.pop_of_empty hc,
    fun ops => runQOps_count_le ops hcount,
    fun hc => EvQueue.absQ_pop hc,
    fun j hlt => EvQueue.absQ_push j ⟨hlen, hhead, hcount, htail⟩ hlt,
    ?_, ?_⟩
  · intro i hi
    constructor
    · unfold EvQueue.absQ
      rw [List.getD_eq_getElem?_getD, List.getElem?_map, List.getElem?_range hi]
      rfl
    · rw [hlen]
      exact Nat.mod_lt _ hcap
  · unfold EvQueue.front EvQueue.atIdx
    congr 1
    rw [Nat.add_zero, Nat.mod_eq_of_lt hhead]

/-- C9 witness: the theorem applied to a concrete two-slot queue holding one
entry. -/
theorem c9_witness :
    (smallQueue.count = 0 → smallQueue.pop = smallQueue) ∧
    (runQOps smallQueue [QOp.push "c", QOp.pop]).count ≤ smallQueue.capacity ∧
    (smallQueue.count ≠ 0 → smallQueue.pop.absQ = smallQueue.absQ.tail) ∧
    smallQueue.atIdx 0 = smallQueue.absQ.getD 0 ⟨"", false⟩ ∧
    smallQueue.front = smallQueue.atIdx 0 := by
  have h := c9_pop_empty_noop_and_fifo smallQueue (by decide)
  exact ⟨h.1, h.2.1 _, h.2.2.1, (h.2.2.2.2.1 0 (by decide)).1, h.2.2.2.2.2⟩

/-- C5: a push through the checked admission path onto a full queue returns
false, bumps the drop counter by exactly one and leaves the queue (indices,
count and buffer) unchanged; and over every sequence of push/pop operations
the count never exceeds the declared capacity. -/
theorem c5_full_queue_tail_drop :
    (∀ (s : NodeState) (json : String), isValidEventJson json = true →
      s.queue.count = s.queue.capacity →
      enqueueEventChecked s json =
        ({ s with eventDropCount := s.eventDropCount + 1 }, false)) ∧
    (∀ (q : EvQueue) (ops : List QOp), q.count ≤ q.capacity →
      (runQOps q ops).count ≤ q.capacity) := by
  constructor
  · intro s json hv hfull
    rcases enqueueEventChecked_cases s json with ⟨he, hbad⟩ | ⟨he, _, _⟩ | ⟨_, _, hlt⟩
    · rw [hv] at hbad
      exact absurd hbad (by simp)
    · exact he
    · omega
  · intro q ops h
    exact runQOps_count_le ops h

/-- C5 witness: the theorem applied to a full 300-slot queue and a valid
event string. -/
theorem c5_witness :
    enqueueEventChecked fullQueueState sampleEventJson =
      ({ fullQueueState with
          eventDropCount := fullQueueState.eventDropCount + 1 }, false) ∧
    (runQOps fullQueueState.queue [QOp.push "a", QOp.pop]).count ≤
      fullQueueState.queue.capacity := by
  refine ⟨c5_full_queue_tail_drop.1 fullQueueState sampleEventJson ?_ ?_,
    c5_full_queue_tail_drop.2 fullQueueState.queue _ ?_⟩
  · decide
  · decide
  · decide

/-- C8: admitting a payload whose JSON lacks the "data" key increments the
invalid counter by exactly one, pushes nothing, and reports not-accepted;
and every call of the checked admission path either pushes the event,
increments the invalid counter, or increments the drop counter. -/
theorem c8_admission_tristate :
    (∀ (s : NodeState) (json : String), strHas json "\"data\"" = false →
      enqueueEventChecked s json =
        ({ s with eventInvalidCount := s.eventInvalidCount + 1 }, false)) ∧
    (∀ (s : NodeState) (json : String),
      ((enqueueEventChecked s json).2 = true ∧
        (enqueueEventChecked s json).1.queue.count = s.queue.count + 1 ∧
        (enqueueEventChecked s json).1.eventInvalidCount = s.eventInvalidCount ∧
        (enqueueEventChecked s json).1.eventDropCount = s.eventDropCount) ∨
      ((enqueueEventChecked s json).2 = false ∧
        (enqueueEventChecked s json).1.queue = s.queue ∧
        (enqueueEventChecked s json).1.eventInvalidCount = s.eventInvalidCount + 1 ∧
        (enqueueEventChecked s json).1.eventDropCount = s.eventDropCount) ∨
      ((enqueueEventChecked s json).2 = false ∧
        (enqueueEventChecked s json).1.queue = s.queue ∧
        (enqueueEventChecked s json).1.eventInvalidCount = s.eventInvalidCount ∧
        (enqueueEventChecked s json).1.eventDropCount = s.eventDropCount + 1)) := by
  constructor
  · intro s json hnd
    have hv : isValidEventJson json = false := by
      unfold isValidEventJson
      rw [hnd]
      simp
    rcases enqueueEventChecked_cases s json with ⟨he, _⟩ | ⟨_, hv', _⟩ | ⟨_, hv', _⟩
    · exact he
    · rw [hv] at hv'
      exact absurd hv' (by simp)
    · rw [hv] at hv'
      exact absurd hv' (by simp)
  · intro s json
    rcases enqueueEventChecked_cases s json with ⟨he, _⟩ | ⟨he, _, _⟩ | ⟨he, _, hlt⟩
    · exact Or.inr (Or.inl (by rw [he]; exact ⟨rfl, rfl, rfl, rfl⟩))
    · exact Or.inr (Or.inr (by rw [he]; exact ⟨rfl, rfl, rfl, rfl⟩))
    · refine Or.inl ⟨by rw [he], ?_, by rw [he], by rw [he]⟩
      rw [he]
      show (s.queue.push json).1.count = s.queue.count + 1
      rw [EvQueue.push_of_not_full json hlt]

/-- C8 witness: a payload missing the "data" key is rejected on the boot
state, and the tri-state disjunction holds there. -/
theorem c8_witness :
    enqueueEventChecked bootState "\x7b\"v\":1\x7d" =
      ({ bootState with eventInvalidCount := bootState.eventInvalidCount + 1 },
        false) ∧
    (((enqueueEventChecked bootState sampleEventJson).2 = true ∧
      (enqueueEventChecked bootState sampleEventJson).1.queue.count =
        bootState.queue.count + 1 ∧
      (enqueueEventChecked bootState sampleEventJson).1.eventInvalidCount =
        bootState.eventInvalidCount ∧
      (enqueueEventChecked bootState sampleEventJson).1.eventDropCount =
        bootState.eventDropCount) ∨
    ((enqueueEventChecked bootState sampleEventJson).2 = false ∧
      (enqueueEventChecked bootState sampleEventJson).1.queue = bootState.queue ∧
      (enqueueEventChecked bootState sampleEventJson).1.eventInvalidCount =
        bootState.eventInvalidCount + 1 ∧
      (enqueueEventChecked bootState sampleEventJson).1.eventDropCount =
        bootState.eventDropCount) ∨
    ((enqueueEventChecked bootState sampleEventJson).2 = false ∧
      (enqueueEventChecked bootState sampleEventJson).1.queue = bootState.queue ∧
      (enqueueEventChecked bootState sampleEventJson).1.eventInvalidCount =
        bootState.eventInvalidCount ∧
      (enqueueEventChecked bootState sampleEventJson).1.eventDropCount =
        bootState.eventDropCount + 1)) :=
  ⟨c8_admission_tristate.1 bootState "\x7b\"v\":1\x7d" (by decide),
   c8_admission_tristate.2 bootState sampleEventJson⟩

/-- C10: a POST /save with an empty ssid field answers 400 "SSID required",
does not touch the persisted wifi namespace and does not reboot; with a
non-empty ssid it persists ssid and pass and sends the 200 acknowledgement
before the reboot. -/
theorem c10_portal_save (ssid pass : String) (p : Prefs) :
    (ssid.length = 0 →
      handlePortalSave ssid pass p =
        (p, [PortalAction.sendResp 400 "text/plain" "SSID required"])) ∧
    (ssid.length ≠ 0 →
      handlePortalSave ssid pass p =
        ({ ssid := ssid, pass := pass },
         [PortalAction.prefsPut "wifi" "ssid" ssid,
          PortalAction.prefsPut "wifi" "pass" pass,
          PortalAction.sendResp 200 "text/plain" "Saved. Rebooting...",
          PortalAction.reboot])) := by
  constructor
  · intro h
    unfold handlePortalSave
    rw [if_pos h]
  · intro h
    unfold handlePortalSave
    rw [if_neg h]

/-- C10 witness: the theorem applied to an empty and to a non-empty SSID. -/
theorem c10_witness :
    handlePortalSave "" "pw" ⟨"old", "old-pw"⟩ =
      (⟨"old", "old-pw"⟩, [PortalAction.sendResp 400 "text/plain" "SSID required"]) ∧
    handlePortalSave "lab" "pw" ⟨"old", "old-pw"⟩ =
      (⟨"lab", "pw"⟩,
       [PortalAction.prefsPut "wifi" "ssid" "lab",
        PortalAction.prefsPut "wifi" "pass" "pw",
        PortalAction.sendResp 200 "text/plain" "Saved. Rebooting...",
        PortalAction.reboot]) :=
  ⟨(c10_portal_save "" "pw" ⟨"old", "old-pw"⟩).1 (by decide),
   (c10_portal_save "lab" "pw" ⟨"old", "old-pw"⟩).2 (by decide)⟩

/-- C6: after a Wi-Fi disconnect event, and likewise after a connect
timeout, the fail count increments saturating at 6 and the next attempt
time becomes now + min(WIFI_RETRY_BASE_MS * 2^fail, WIFI_RETRY_MAX_MS) +
jitter with the saturated fail count as exponent and jitter drawn from
[0, 1000). -/
theorem c6_wifi_backoff :
    (∀ (w : WifiSt) (reason : Int) (now jitter : Nat), jitter < 1000 →
      (handleWifiDisconnect w reason now jitter).wifiFailCount =
        min (w.wifiFailCount + 1) 6 ∧
      (handleWifiDisconnect w reason now jitter).nextWifiAttemptMs =
        now + (min (WIFI_RETRY_BASE_MS * 2 ^ min (w.wifiFailCount + 1) 6)
          WIFI_RETRY_MAX_MS + jitter) ∧
      (handleWifiDisconnect w reason now jitter).wifiState = "backoff") ∧
    (∀ (w : WifiSt) (now jitter : Nat), jitter < 1000 →
      w.wifiState = "connecting" → 0 < w.wifiConnectStartMs →
      WIFI_CONNECT_TIMEOUT_MS < now - w.wifiConnectStartMs →
      (loopConnectTimeout w false now jitter).wifiFailCount =
        min (w.wifiFailCount + 1) 6 ∧
      (loopConnectTimeout w false now jitter).nextWifiAttemptMs =
        now + (min (WIFI_RETRY_BASE_MS * 2 ^ min (w.wifiFailCount + 1) 6)
          WIFI_RETRY_MAX_MS + jitter) ∧
      (loopConnectTimeout w false now jitter).wifiState = "backoff") := by
  have hbase : WIFI_RETRY_BASE_MS ≤ WIFI_RETRY_MAX_MS := by decide
  constructor
  · intro w reason now jitter _
    refine ⟨rfl, ?_, rfl⟩
    show now + computeWifiBackoffMs (min (w.wifiFailCount + 1) 6) jitter = _
    unfold computeWifiBackoffMs
    rw [doubleClamp_eq _ _ hbase]
  · intro w now jitter _ hst hstart htime
    have hguard : (w.wifiState == "connecting" && !false &&
        decide (0 < w.wifiConnectStartMs) &&
        decide (now - w.wifiConnectStartMs > WIFI_CONNECT_TIMEOUT_MS)) = true := by
      rw [hst]
      simp [hstart, htime]
    unfold loopConnectTimeout
    rw [if_pos hguard]
    refine ⟨rfl, ?_, rfl⟩
    show now + computeWifiBackoffMs (min (w.wifiFailCount + 1) 6) jitter = _
    unfold computeWifiBackoffMs
    rw [doubleClamp_eq _ _ hbase]

/-- C6 witness: the theorem applied to a concrete connecting-state manager,
at now = 20005 ms with jitter 123, for both the disconnect event and the
connect-timeout path. -/
theorem c6_witness :
    (handleWifiDisconnect wifiConnecting 15 20005 123).wifiFailCount = min (0 + 1) 6 ∧
    (handleWifiDisconnect wifiConnecting 15 20005 123).nextWifiAttemptMs =
      20005 + (min (WIFI_RETRY_BASE_MS * 2 ^ min (0 + 1) 6) WIFI_RETRY_MAX_MS + 123) ∧
    (loopConnectTimeout wifiConnecting false 20005 123).wifiFailCount = min (0 + 1) 6 ∧
    (loopConnectTimeout wifiConnecting false 20005 123).wifiState = "backoff" := by
  have h1 := c6_wifi_backoff.1 wifiConnecting 15 20005 123 (by decide)
  have h2 := c6_wifi_backoff.2 wifiConnecting 20005 123 (by decide) (by decide)
    (by decide) (by decide)
  exact ⟨h1.1, h1.2.1, h2.1, h2.2.2⟩

/-! ## Helper lemmas: admitted sequence numbers -/

theorem buildEvent_snd (s : NodeState) (type dataJson extraJson : String)
    (ts : Nat) :
    (buildEvent s type dataJson extraJson ts).2 =
      { s with eventSeq := (s.eventSeq + 1) % 4294967296 } := rfl

theorem runNodeOps_seqs {ops : List NodeOp} : ∀ {s : NodeState},
    s.eventSeq + ops.length < 4294967296 →
    (runNodeOps s ops).2.Pairwise (· < ·) ∧
    ∀ x ∈ (runNodeOps s ops).2, s.eventSeq < x := by
  induction ops with
  | nil =>
    intro s _
    simp [runNodeOps]
  | cons op rest ih =>
    intro s h
    cases op with
    | popQ =>
      have h' : ({ s with queue := s.queue.pop } : NodeState).eventSeq +
          rest.length < 4294967296 := by
        show s.eventSeq + rest.length < 4294967296
        simp only [List.length_cons] at h
        omega
      have := ih h'
      simpa [runNodeOps] using this
    | emit r =>
      simp only [List.length_cons] at h
      have hmod : (s.eventSeq + 1) % 4294967296 = s.eventSeq + 1 :=
        Nat.mod_eq_of_lt (by omega)
      have hseq : (enqueueEventChecked (buildEvent s r.type r.data r.extra r.ts).2
          (buildEvent s r.type r.data r.extra r.ts).1).1.eventSeq = s.eventSeq + 1 := by
        rw [(enqueueEventChecked_preserves _ _).2.1, buildEvent_snd]
        exact hmod
      have h' : (enqueueEventChecked (buildEvent s r.type r.data r.extra r.ts).2
          (buildEvent s r.type r.data r.extra r.ts).1).1.eventSeq +
          rest.length < 4294967296 := by
        rw [hseq]
        omega
      obtain ⟨hpair, hlow⟩ := ih h'
      simp only [runNodeOps]
      by_cases he : (enqueueEventChecked (buildEvent s r.type r.data r.extra r.ts).2
          (buildEvent s r.type r.data r.extra r.ts).1).2 = true
      · rw [if_pos he]
        constructor
        · refine List.Pairwise.cons ?_ hpair
          intro x hx
          have := hlow x hx
          rw [hseq] at this
          rw [buildEvent_snd]
          show (s.eventSeq + 1) % 4294967296 < x
          omega
        · intro x hx
          rcases List.mem_cons.mp hx with hx1 | hx2
          · rw [hx1, buildEvent_snd]
            show s.eventSeq < (s.eventSeq + 1) % 4294967296
            omega
          · have := hlow x hx2
            rw [hseq] at this
            omega
      · rw [if_neg he]
        refine ⟨hpair, fun x hx => ?_⟩
        have := hlow x hx
        rw [hseq] at this
        omega

theorem runNodeOps_first_admitted {ops : List NodeOp} : ∀ {s : NodeState},
    s.queue.count = 0 → 0 < s.queue.capacity →
    (runNodeOps s ops).2 = [] ∨
    (runNodeOps s ops).2.head? = some ((s.eventSeq + 1) % 4294967296) := by
  induction ops with
  | nil =>
    intro s _ _
    exact Or.inl rfl
  | cons op rest ih =>
    intro s h0 hcap
    cases op with
    | popQ =>
      have hq : s.queue.pop = s.queue := EvQueue.pop_of_empty h0
      have := @ih { s with queue := s.queue.pop }
        (by show s.queue.pop.count = 0; rw [hq]; exact h0)
        (by show 0 < s.queue.pop.capacity; rw [hq]; exact hcap)
      simpa [runNodeOps] using this
    | emit r =>
      have hvalid : isValidEventJson (buildEvent s r.type r.data r.extra r.ts).1 =
        true := buildEvent_valid ..
      have hqueue : (buildEvent s r.type r.data r.extra r.ts).2.queue = s.queue := by
        rw [buildEvent_snd]
      rcases enqueueEventChecked_cases (buildEvent s r.type r.data r.extra r.ts).2
          (buildEvent s r.type r.data r.extra r.ts).1 with
        ⟨_, hbad⟩ | ⟨_, _, hfull⟩ | ⟨he, _, _⟩
      · rw [hvalid] at hbad
        exact absurd hbad (by simp)
      · rw [hqueue, h0] at hfull
        omega
      · right
        simp only [runNodeOps]
        rw [he]
        simp [buildEvent_snd]

/-- C4: within a single boot the sequence numbers of the events admitted to
the queue are strictly increasing in admission order and the first admitted
event carries seq = 1, for every trace of build-and-enqueue and pop
operations whose length stays below the uint32 wrap. -/
theorem c4_seq_strictly_increasing (ops : List NodeOp)
    (hlen : ops.length < 4294967296) :
    (runNodeOps bootState ops).2.Pairwise (· < ·) ∧
    ((runNodeOps bootState ops).2 = [] ∨
      (runNodeOps bootState ops).2.head? = some 1) ∧
    ∀ x ∈ (runNodeOps bootState ops).2, 1 ≤ x := by
  have h1 := @runNodeOps_seqs ops bootState
    (by show 0 + ops.length < 4294967296; omega)
  have h2 := @runNodeOps_first_admitted ops bootState rfl (by decide)
  exact ⟨h1.1, h2, fun x hx => h1.2 x hx⟩

/-- C4 witness: the theorem applied to a concrete three-operation trace. -/
theorem c4_witness :
    (runNodeOps bootState seqOpsSample).2.Pairwise (· < ·) ∧
    ((runNodeOps bootState seqOpsSample).2 = [] ∨
      (runNodeOps bootState seqOpsSample).2.head? = some 1) ∧
    ∀ x ∈ (runNodeOps bootState seqOpsSample).2, 1 ≤ x :=
  c4_seq_strictly_increasing seqOpsSample (by decide)

/-! ## Helper lemmas: decimal rendering of the HTTP code is never empty -/

theorem toDigitsCore_length_ge (b : Nat) : ∀ (fuel n : Nat) (ds : List Char),
    ds.length ≤ (Nat.toDigitsCore b fuel n ds).length := by
  intro fuel
  induction fuel with
  | zero => intro n ds; simp [Nat.toDigitsCore]
  | succ f ih =>
    intro n ds
    simp only [Nat.toDigitsCore]
    split
    · simp
    · exact Nat.le_trans (by simp) (ih (n / b) (Nat.digitChar (n % b) :: ds))

theorem toDigitsCore_length_pos (b f n : Nat) (ds : List Char) :
    ds.length + 1 ≤ (Nat.toDigitsCore b (f + 1) n ds).length := by
  simp only [Nat.toDigitsCore]
  split
  · simp
  · exact Nat.le_trans (by simp)
      (toDigitsCore_length_ge b f (n / b) (Nat.digitChar (n % b) :: ds))

theorem natRepr_length_pos (n : Nat) : 0 < (Nat.repr n).length := by
  show 0 < (Nat.toDigits 10 n).asString.length
  have h := toDigitsCore_length_pos 10 n n []
  simpa [Nat.toDigits, List.asString, String.length] using h

theorem toString_int_length_pos (i : Int) : 0 < (toString i).length := by
  show 0 < (Int.repr i).length
  cases i with
  | ofNat m => exact natRepr_length_pos m
  | negSucc m =>
    show 0 < ("-" ++ Nat.repr (m + 1)).length
    show 0 < ("-" ++ Nat.repr (m + 1)).data.length
    rw [str_data_append, List.length_append]
    have h1 : ("-".data).length = 1 := rfl
    omega

/-! ## Helper lemmas: emission conditions of the ingest client -/

theorem trySendQueued_offline (s : NodeState) (code : Int) (t0 t1 jitter : Nat) :
    (trySendQueued s false code t0 t1 jitter).2 = none := by
  unfold trySendQueued
  split
  · rfl
  split
  · rfl
  rfl

theorem ingestFailureState_lastIngestErr (s : NodeState) (code : Int)
    (batch t1 jitter : Nat) :
    (ingestFailureState s code batch t1 jitter).lastIngestErr = toString code := rfl

theorem ingestFailureState_lastErrEvent (s : NodeState) (code : Int)
    (batch t1 jitter : Nat) :
    (ingestFailureState s code batch t1 jitter).lastIngestErrEventMs =
      s.lastIngestErrEventMs := rfl

theorem ingestSuccessState_lastIngestErr (s : NodeState) (batch t1 : Nat) :
    (ingestSuccessState s batch t1).lastIngestErr = "" := rfl

theorem ingestSuccessState_lastOkEvent (s : NodeState) (batch t1 : Nat) :
    (ingestSuccessState s batch t1).lastIngestOkEventMs =
      s.lastIngestOkEventMs := rfl

theorem trySendQueued_err_emit_time {s : NodeState} {code : Int}
    {t0 t1 jitter : Nat} (hq : s.queue.count ≠ 0) (hg : ¬ t0 < s.nextSendAtMs) :
    (trySendQueued s true code t0 t1 jitter).2 = some "ingest.err" →
    60000 < t1 - s.lastIngestErrEventMs := by
  intro hem
  unfold trySendQueued at hem
  rw [if_neg hq, if_neg hg] at hem
  rw [if_neg (by simp)] at hem
  by_cases hok2 : 200 ≤ code ∧ code < 300
  · simp only [if_pos hok2] at hem
    unfold ingestSuccess at hem
    split at hem
    · simp at hem
    · simp at hem
  · simp only [if_neg hok2] at hem
    unfold ingestFailure at hem
    split at hem
    next hcond =>
      rcases hcond with h1 | h2 | h3
      · rw [ingestFailureState_lastIngestErr] at h1
        have := toString_int_length_pos code
        omega
      · exact absurd (ingestFailureState_lastIngestErr ..) h2
      · rwa [ingestFailureState_lastErrEvent] at h3
    next => simp at hem

theorem trySendQueued_ok_emit_time {s : NodeState} {code : Int}
    {t0 t1 jitter : Nat} (hq : s.queue.count ≠ 0) (hg : ¬ t0 < s.nextSendAtMs) :
    (trySendQueued s true code t0 t1 jitter).2 = some "ingest.ok" →
    60000 < t1 - s.lastIngestOkEventMs := by
  intro hem
  unfold trySendQueued at hem
  rw [if_neg hq, if_neg hg] at hem
  rw [if_neg (by simp)] at hem
  by_cases hok2 : 200 ≤ code ∧ code < 300
  · simp only [if_pos hok2] at hem
    unfold ingestSuccess at hem
    split at hem
    next hcond =>
      rw [ingestSuccessState_lastIngestErr, ingestSuccessState_lastOkEvent] at hcond
      rcases hcond with h1 | h2
      · exact absurd h1 (by decide)
      · exact h2
    next => simp at hem
  · simp only [if_neg hok2] at hem
    unfold ingestFailure at hem
    split at hem
    · simp at hem
    · simp at hem

/-- C7: an ingest.err event is emitted after a failed POST only when the
error string differs from the last recorded error or more than a minute has
passed since the last ingest.err emission; an ingest.ok event is emitted
after a successful POST only when the previous outcome was an error or more
than a minute has passed since the last ingest.ok emission (in the code the
first disjunct of each rule is never the trigger, because markIngestOk /
markIngestErr overwrite lastIngestErr before the check, so emission happens
exactly on the one-minute rule); offline the client emits neither. -/
theorem c7_ingest_emission_throttled (s : NodeState) (code : Int)
    (t0 t1 jitter : Nat) (hq : s.queue.count ≠ 0) (hg : ¬ t0 < s.nextSendAtMs) :
    ((trySendQueued s true code t0 t1 jitter).2 = some "ingest.err" →
      toString code ≠ s.lastIngestErr ∨ 60000 < t1 - s.lastIngestErrEventMs) ∧
    ((trySendQueued s true code t0 t1 jitter).2 = some "ingest.ok" →
      s.lastIngestErr ≠ "" ∨ 60000 < t1 - s.lastIngestOkEventMs) ∧
    (trySendQueued s false code t0 t1 jitter).2 = none :=
  ⟨fun hem => Or.inr (trySendQueued_err_emit_time hq hg hem),
   fun hem => Or.inr (trySendQueued_ok_emit_time hq hg hem),
   trySendQueued_offline s code t0 t1 jitter⟩

/-- C7 witness: the theorem applied to a queue holding one event, a 500
response at t1 = 70000 ms. -/
theorem c7_witness :
    ((trySendQueued oneQueuedState true 500 0 70000 17).2 = some "ingest.err" →
      toString (500 : Int) ≠ oneQueuedState.lastIngestErr ∨
        60000 < 70000 - oneQueuedState.lastIngestErrEventMs) ∧
    ((trySendQueued oneQueuedState true 500 0 70000 17).2 = some "ingest.ok" →
      oneQueuedState.lastIngestErr ≠ "" ∨
        60000 < 70000 - oneQueuedState.lastIngestOkEventMs) ∧
    (trySendQueued oneQueuedState false 500 0 70000 17).2 = none :=
  c7_ingest_emission_throttled oneQueuedState 500 0 70000 17 (by decide) (by decide)

/-! ## Helper lemmas: queue effect of the ingest branches -/

theorem enqueueEvent_build_qJsons (s : NodeState) (ty d e : String) (now : Nat)
    (hwf : s.queue.WF) :
    ∃ rest, qJsons (enqueueEvent (buildEvent s ty d e now).2
        (buildEvent s ty d e now).1).queue = qJsons s.queue ++ rest ∧
      rest.length ≤ 1 ∧
      (enqueueEvent (buildEvent s ty d e now).2 (buildEvent s ty d e now).1).queue.WF := by
  have hq : (buildEvent s ty d e now).2.queue = s.queue := rfl
  obtain ⟨rest, h1, h2, h3⟩ := enqueueEventChecked_qJsons
    (buildEvent s ty d e now).2 (buildEvent s ty d e now).1 (by rw [hq]; exact hwf)
  exact ⟨rest, by unfold enqueueEvent; rw [h1, hq], h2,
    by unfold enqueueEvent; exact h3⟩

theorem enqueueEvent_build_failCount (s : NodeState) (ty d e : String) (now : Nat) :
    (enqueueEvent (buildEvent s ty d e now).2
      (buildEvent s ty d e now).1).failCount = s.failCount :=
  ((enqueueEventChecked_preserves _ _).1).trans rfl

theorem emitIngestOk_failCount (s : NodeState) (c m now : Nat) :
    (emitIngestOk s c m now).failCount = s.failCount := by
  simp only [emitIngestOk]
  exact enqueueEvent_build_failCount s _ _ _ now

theorem emitIngestErr_failCount (s : NodeState) (err : String) (m now : Nat) :
    (emitIngestErr s err m now).failCount = s.failCount := by
  simp only [emitIngestErr]
  exact enqueueEvent_build_failCount s _ _ _ now

theorem emitIngestOk_qJsons (s : NodeState) (c m now : Nat) (hwf : s.queue.WF) :
    ∃ rest, qJsons (emitIngestOk s c m now).queue = qJsons s.queue ++ rest ∧
      rest.length ≤ 1 := by
  simp only [emitIngestOk]
  obtain ⟨rest, h1, h2, _⟩ := enqueueEvent_build_qJsons s "ingest.ok" _ "" now hwf
  exact ⟨rest, h1, h2⟩

theorem emitIngestErr_qJsons (s : NodeState) (err : String) (m now : Nat)
    (hwf : s.queue.WF) :
    ∃ rest, qJsons (emitIngestErr s err m now).queue = qJsons s.queue ++ rest ∧
      rest.length ≤ 1 := by
  simp only [emitIngestErr]
  obtain ⟨rest, h1, h2, _⟩ := enqueueEvent_build_qJsons s "ingest.err" _ _ now hwf
  exact ⟨rest, h1, h2⟩

theorem ingestSuccess_failCount (s : NodeState) (batch ms t1 : Nat) :
    (ingestSuccess s batch ms t1).1.failCount = 0 := by
  unfold ingestSuccess
  split
  · show (emitIngestOk (ingestSuccessState s batch t1) batch ms t1).failCount = 0
    rw [emitIngestOk_failCount]
    rfl
  · rfl

theorem ingestSuccess_qJsons (s : NodeState) (batch ms t1 : Nat)
    (hwf : s.queue.WF) (hb : batch ≤ s.queue.count) :
    ∃ rest, qJsons (ingestSuccess s batch ms t1).1.queue =
      (qJsons s.queue).drop batch ++ rest ∧ rest.length ≤ 1 := by
  have hstq : (ingestSuccessState s batch t1).queue = popN s.queue batch := rfl
  have hdrop : qJsons (popN s.queue batch) = (qJsons s.queue).drop batch := by
    unfold qJsons
    rw [EvQueue.absQ_popN hwf hb, List.map_drop]
  unfold ingestSuccess
  split
  · obtain ⟨rest, h1, h2⟩ := emitIngestOk_qJsons (ingestSuccessState s batch t1)
      batch ms t1 (by rw [hstq]; exact EvQueue.WF_popN hwf)
    refine ⟨rest, ?_, h2⟩
    show qJsons (emitIngestOk (ingestSuccessState s batch t1) batch ms t1).queue = _
    rw [h1, hstq, hdrop]
  · refine ⟨[], ?_, by simp⟩
    rw [List.append_nil]
    show qJsons (ingestSuccessState s batch t1).queue = _
    rw [hstq, hdrop]

theorem ingestFailure_qJsons (s : NodeState) (code : Int) (batch ms t1 jitter : Nat)
    (hwf : s.queue.WF) :
    ∃ rest, qJsons (ingestFailure s code batch ms t1 jitter).1.queue =
      qJsons s.queue ++ rest ∧ rest.length ≤ 1 := by
  have hstq : (ingestFailureState s code batch t1 jitter).queue =
    logLoop s.queue batch := rfl
  have hlog : qJsons (logLoop s.queue batch) = qJsons s.queue :=
    qJsons_logLoop batch hwf
  unfold ingestFailure
  split
  · obtain ⟨rest, h1, h2⟩ := emitIngestErr_qJsons
      (ingestFailureState s code batch t1 jitter) (toString code) ms t1
      (by rw [hstq]; exact EvQueue.WF_logLoop batch hwf)
    refine ⟨rest, ?_, h2⟩
    show qJsons (emitIngestErr (ingestFailureState s code batch t1 jitter)
      (toString code) ms t1).queue = _
    rw [h1, hstq, hlog]
  · refine ⟨[], ?_, by simp⟩
    rw [List.append_nil]
    show qJsons (ingestFailureState s code batch t1 jitter).queue = _
    rw [hstq, hlog]

theorem ingestOffline_qJsons (s : NodeState) (t0 jitter : Nat) (hwf : s.queue.WF) :
    qJsons (ingestOffline s t0 jitter).queue = qJsons s.queue := by
  show qJsons (logLoop s.queue 1) = _
  exact qJsons_logLoop 1 hwf

/-- C1 (amended): when the POST gets a 2xx code, exactly the posted prefix
(of length min(queue.size(), INGEST_BATCH_SIZE)) is popped and the fail
count resets to 0, though a throttled ingest.ok event may additionally be
admitted; on a non-2xx/timeout outcome nothing is popped - the queued
events all survive in order - but a throttled ingest.err event may be
appended, so the size may grow by one; offline nothing is popped and
nothing is appended. -/
theorem c1_ingest_pop_semantics (s : NodeState) (code : Int) (t0 t1 jitter : Nat)
    (hwf : s.queue.WF) (hq : s.queue.count ≠ 0) (hg : ¬ t0 < s.nextSendAtMs) :
    ((200 ≤ code ∧ code < 300) →
      (trySendQueued s true code t0 t1 jitter).1.failCount = 0 ∧
      ∃ rest, qJsons (trySendQueued s true code t0 t1 jitter).1.queue =
          (qJsons s.queue).drop (min s.queue.count INGEST_BATCH_SIZE) ++ rest ∧
        rest.length ≤ 1) ∧
    (¬ (200 ≤ code ∧ code < 300) →
      ∃ rest, qJsons (trySendQueued s true code t0 t1 jitter).1.queue =
          qJsons s.queue ++ rest ∧ rest.length ≤ 1) ∧
    qJsons (trySendQueued s false code t0 t1 jitter).1.queue = qJsons s.queue ∧
    (trySendQueued s false code t0 t1 jitter).1.failCount =
      min (s.failCount + 1) 6 := by
  have hconn : trySendQueued s true code t0 t1 jitter =
      (if 200 ≤ code ∧ code < 300 then
        ingestSuccess s (min s.queue.count INGEST_BATCH_SIZE) (t1 - t0) t1
      else ingestFailure s code (min s.queue.count INGEST_BATCH_SIZE)
        (t1 - t0) t1 jitter) := by
    unfold trySendQueued
    rw [if_neg hq, if_neg hg, if_neg (by simp)]
  have hoff : trySendQueued s false code t0 t1 jitter =
      (ingestOffline s t0 jitter, none) := by
    unfold trySendQueued
    rw [if_neg hq, if_neg hg, if_pos (by simp)]
  refine ⟨?_, ?_, ?_, ?_⟩
  · intro hok2
    rw [hconn, if_pos hok2]
    exact ⟨ingestSuccess_failCount s (min s.queue.count INGEST_BATCH_SIZE)
        (t1 - t0) t1,
      ingestSuccess_qJsons s (min s.queue.count INGEST_BATCH_SIZE) (t1 - t0) t1
        hwf (Nat.min_le_left _ _)⟩
  · intro hbad
    rw [hconn, if_neg hbad]
    exact ingestFailure_qJsons s code (min s.queue.count INGEST_BATCH_SIZE)
      (t1 - t0) t1 jitter hwf
  · rw [hoff]
    exact ingestOffline_qJsons s t0 jitter hwf
  · rw [hoff]
    rfl

/-- C1 counterexample: with one queued event, a POST answered 500 at
t1 = 70000 ms pops nothing but admits an ingest.err event, so the queue
size changes from 1 to 2 - refuting "on any non-2xx response ... the queue
size is unchanged" as stated. -/
theorem c1_counterexample :
    oneQueuedState.queue.count = 1 ∧
    (trySendQueued oneQueuedState true 500 0 70000 17).2 = some "ingest.err" ∧
    (trySendQueued oneQueuedState true 500 0 70000 17).1.queue.count = 2 := by
  exact ⟨by decide, by decide, by decide⟩

/-- C1 witness: the amended theorem applied to a queue holding one event,
for a 204 success, a 500 failure and the offline branch. -/
theorem c1_witness :
    (trySendQueued oneQueuedState true 204 0 70000 17).1.failCount = 0 ∧
    (∃ rest, qJsons (trySendQueued oneQueuedState true 204 0 70000 17).1.queue =
        (qJsons oneQueuedState.queue).drop
          (min oneQueuedState.queue.count INGEST_BATCH_SIZE) ++ rest ∧
      rest.length ≤ 1) ∧
    (∃ rest, qJsons (trySendQueued oneQueuedState true 500 0 70000 17).1.queue =
        qJsons oneQueuedState.queue ++ rest ∧ rest.length ≤ 1) ∧
    qJsons (trySendQueued oneQueuedState false 500 0 70000 17).1.queue =
      qJsons oneQueuedState.queue := by
  have h204 := c1_ingest_pop_semantics oneQueuedState 204 0 70000 17
    (by decide) (by decide) (by decide)
  have h500 := c1_ingest_pop_semantics oneQueuedState 500 0 70000 17
    (by decide) (by decide) (by decide)
  have ha := h204.1 (by decide)
  exact ⟨ha.1, ha.2, h500.2.1 (by decide), h500.2.2.1⟩

/-! ## Helper lemmas: BLE callback pieces -/

theorem enqChk_bleRing (s : NodeState) (j : String) :
    (enqueueEventChecked s j).1.bleRing = s.bleRing :=
  (enqueueEventChecked_preserves s j).2.2.2.2.2.1

theorem enqChk_bleRingCount (s : NodeState) (j : String) :
    (enqueueEventChecked s j).1.bleRingCount = s.bleRingCount :=
  (enqueueEventChecked_preserves s j).2.2.2.2.2.2.1

theorem enqChk_bleRingHead (s : NodeState) (j : String) :
    (enqueueEventChecked s j).1.bleRingHead = s.bleRingHead :=
  (enqueueEventChecked_preserves s j).2.2.2.2.2.2.2.1

theorem enqChk_bleDedupeCount (s : NodeState) (j : String) :
    (enqueueEventChecked s j).1.bleDedupeCount = s.bleDedupeCount :=
  (enqueueEventChecked_preserves s j).2.2.2.2.2.2.2.2.2.1

theorem enqChk_bleSeenCount (s : NodeState) (j : String) :
    (enqueueEventChecked s j).1.bleSeenCount = s.bleSeenCount :=
  (enqueueEventChecked_preserves s j).2.2.2.2.2.2.2.2.2.2.1

theorem enqChk_bleSecondStart (s : NodeState) (j : String) :
    (enqueueEventChecked s j).1.bleSecondStart = s.bleSecondStart :=
  (enqueueEventChecked_preserves s j).2.2.2.2.2.2.2.2.2.2.2.1

theorem enqChk_bleCountThisSecond (s : NodeState) (j : String) :
    (enqueueEventChecked s j).1.bleCountThisSecond = s.bleCountThisSecond :=
  (enqueueEventChecked_preserves s j).2.2.2.2.2.2.2.2.2.2.2.2.1

theorem bleWindowStep_of_reset {s : NodeState} {now : Nat}
    (h : 1000 ≤ now - s.bleSecondStart) :
    bleWindowStep s now =
      { s with lastBleResultMs := now, bleSecondStart := now,
               bleCountThisSecond := 0 } := by
  unfold bleWindowStep
  rw [if_pos h]

theorem bleWindowStep_of_no_reset {s : NodeState} {now : Nat}
    (h : now - s.bleSecondStart < 1000) :
    bleWindowStep s now = { s with lastBleResultMs := now } := by
  unfold bleWindowStep
  rw [if_neg (by omega)]

theorem bleWindowStep_preserves (s : NodeState) (now : Nat) :
    (bleWindowStep s now).bleRing = s.bleRing ∧
    (bleWindowStep s now).bleRingCount = s.bleRingCount ∧
    (bleWindowStep s now).bleRingHead = s.bleRingHead ∧
    (bleWindowStep s now).bleDedupeCount = s.bleDedupeCount ∧
    (bleWindowStep s now).bleSeenCount = s.bleSeenCount ∧
    (bleWindowStep s now).queue = s.queue := by
  unfold bleWindowStep
  split <;> exact ⟨rfl, rfl, rfl, rfl, rfl, rfl⟩

theorem recordBle_preserves (s : NodeState) (now : Nat) (mac name : String)
    (rssi : Int) (svcCount mfgLen advFlags : Nat) :
    (recordBleObservation s now mac name rssi svcCount mfgLen advFlags).queue =
      s.queue ∧
    (recordBleObservation s now mac name rssi svcCount mfgLen
      advFlags).bleCountThisSecond = s.bleCountThisSecond ∧
    (recordBleObservation s now mac name rssi svcCount mfgLen
      advFlags).bleSecondStart = s.bleSecondStart ∧
    (recordBleObservation s now mac name rssi svcCount mfgLen
      advFlags).bleSeenCount = s.bleSeenCount := by
  unfold recordBleObservation
  split
  · split <;> exact ⟨rfl, rfl, rfl, rfl⟩
  · split <;> exact ⟨rfl, rfl, rfl, rfl⟩

theorem recordBle_dedup_hit (s : NodeState) (now : Nat) (mac name : String)
    (rssi : Int) (svcCount mfgLen advFlags idx : Nat)
    (hfind : ringScanFrom s.bleRing s.bleRingHead mac advFlags 0
      s.bleRingCount = some idx)
    (hwin : now - (s.bleRing.getD idx default).lastSeenMs ≤ BLE_DEDUPE_MS) :
    recordBleObservation s now mac name rssi svcCount mfgLen advFlags =
      { s with
        bleRing := s.bleRing.set idx
          { s.bleRing.getD idx default with
            rssi := rssi, lastSeenMs := now,
            seenCount := (s.bleRing.getD idx default).seenCount + 1 },
        bleDedupeCount := s.bleDedupeCount + 1 } := by
  simp only [recordBleObservation, hfind]
  rw [if_pos hwin]

theorem bleEmit_fields (s : NodeState) (now : Nat) (mac name : String)
    (rssi : Int) (svcCount mfgLen advFlags : Nat) (addrType : String) :
    (bleEmit s now mac name rssi svcCount mfgLen advFlags
      addrType).bleCountThisSecond = s.bleCountThisSecond + 1 ∧
    (bleEmit s now mac name rssi svcCount mfgLen advFlags
      addrType).bleSecondStart = s.bleSecondStart ∧
    (bleEmit s now mac name rssi svcCount mfgLen advFlags
      addrType).bleSeenCount = s.bleSeenCount + 1 ∧
    (bleEmit s now mac name rssi svcCount mfgLen advFlags addrType).bleRing =
      (recordBleObservation
        { s with bleCountThisSecond := s.bleCountThisSecond + 1,
                 bleSeenCount := s.bleSeenCount + 1 }
        now mac name rssi svcCount mfgLen advFlags).bleRing ∧
    (bleEmit s now mac name rssi svcCount mfgLen advFlags
      addrType).bleRingCount =
      (recordBleObservation
        { s with bleCountThisSecond := s.bleCountThisSecond + 1,
                 bleSeenCount := s.bleSeenCount + 1 }
        now mac name rssi svcCount mfgLen advFlags).bleRingCount ∧
    (bleEmit s now mac name rssi svcCount mfgLen advFlags
      addrType).bleRingHead =
      (recordBleObservation
        { s with bleCountThisSecond := s.bleCountThisSecond + 1,
                 bleSeenCount := s.bleSeenCount + 1 }
        now mac name rssi svcCount mfgLen advFlags).bleRingHead ∧
    (bleEmit s now mac name rssi svcCount mfgLen advFlags
      addrType).bleDedupeCount =
      (recordBleObservation
        { s with bleCountThisSecond := s.bleCountThisSecond + 1,
                 bleSeenCount := s.bleSeenCount + 1 }
        now mac name rssi svcCount mfgLen advFlags).bleDedupeCount := by
  unfold bleEmit enqueueEvent
  refine ⟨?_, ?_, ?_, ?_, ?_, ?_, ?_⟩
  · rw [enqChk_bleCountThisSecond]
    show (recordBleObservation _ now mac name rssi svcCount mfgLen
      advFlags).bleCountThisSecond = s.bleCountThisSecond + 1
    rw [(recordBle_preserves _ now mac name rssi svcCount mfgLen advFlags).2.1]
  · rw [enqChk_bleSecondStart]
    show (recordBleObservation _ now mac name rssi svcCount mfgLen
      advFlags).bleSecondStart = s.bleSecondStart
    rw [(recordBle_preserves _ now mac name rssi svcCount mfgLen
      advFlags).2.2.1]
  · rw [enqChk_bleSeenCount]
    show (recordBleObservation _ now mac name rssi svcCount mfgLen
      advFlags).bleSeenCount = s.bleSeenCount + 1
    rw [(recordBle_preserves _ now mac name rssi svcCount mfgLen
      advFlags).2.2.2]
  · rw [enqChk_bleRing]
    rfl
  · rw [enqChk_bleRingCount]
    rfl
  · rw [enqChk_bleRingHead]
    rfl
  · rw [enqChk_bleDedupeCount]
    rfl

theorem bleEmit_qJsons (s : NodeState) (now : Nat) (mac name : String)
    (rssi : Int) (svcCount mfgLen advFlags : Nat) (addrType : String)
    (hwf : s.queue.WF) :
    ∃ rest, qJsons (bleEmit s now mac name rssi svcCount mfgLen advFlags
        addrType).queue = qJsons s.queue ++ rest ∧ rest.length ≤ 1 := by
  unfold bleEmit
  have hrq : (recordBleObservation
      { s with bleCountThisSecond := s.bleCountThisSecond + 1,
               bleSeenCount := s.bleSeenCount + 1 }
      now mac name rssi svcCount mfgLen advFlags).queue = s.queue :=
    (recordBle_preserves _ now mac name rssi svcCount mfgLen advFlags).1
  obtain ⟨rest, h1, h2, _⟩ := enqueueEvent_build_qJsons
    (recordBleObservation
      { s with bleCountThisSecond := s.bleCountThisSecond + 1,
               bleSeenCount := s.bleSeenCount + 1 }
      now mac name rssi svcCount mfgLen advFlags)
    "ble.seen"
    ("\x7b" ++ jsonKV "addr" mac true
      ++ "," ++ jsonKV "rssi" (toString rssi) false
      ++ "," ++ jsonKV "addr_type" addrType true
      ++ "," ++ jsonKV "flags" (toString advFlags) false ++ "\x7d")
    (jsonKV "mac" mac true ++ "," ++ jsonKV "rssi" (toString rssi) false)
    now (by rw [hrq]; exact hwf)
  rw [hrq] at h1
  exact ⟨rest, h1, h2⟩

theorem onResult_gate_drop {s : NodeState} {now : Nat} (mac name : String)
    (rssi : Int) (svcCount mfgLen advFlags : Nat) (addrType : String)
    (hno : now - s.bleSecondStart < 1000)
    (hcap : BLE_MAX_PER_SECOND ≤ s.bleCountThisSecond) :
    onResult s now mac name rssi svcCount mfgLen advFlags addrType =
      ({ s with lastBleResultMs := now }, false) := by
  unfold onResult
  rw [bleWindowStep_of_no_reset hno]
  rw [if_pos hcap]

theorem onResult_gate_emit {s : NodeState} {now : Nat} (mac name : String)
    (rssi : Int) (svcCount mfgLen advFlags : Nat) (addrType : String)
    (hlt : (bleWindowStep s now).bleCountThisSecond < BLE_MAX_PER_SECOND) :
    onResult s now mac name rssi svcCount mfgLen advFlags addrType =
      (bleEmit (bleWindowStep s now) now mac name rssi svcCount mfgLen advFlags
        addrType, true) := by
  unfold onResult
  rw [if_neg (by omega)]

/-- C2 (amended): a rate-admitted advertisement whose MAC and adv flags
match a ring entry last seen within BLE_DEDUPE_MS refreshes that entry's
RSSI and last-seen timestamp, increments its seen-count and the dedup
counter, and leaves the ring shape unchanged - but, contrary to the
original claim, a ble.seen event is still emitted (the dedup path only
short-circuits the ring update, not the emission), so applying the same
advertisement twice within the window yields two emissions and a seen-count
of 2. -/
theorem c2_dedupe_refresh_still_emits (s : NodeState) (now : Nat)
    (mac name : String) (rssi : Int) (svcCount mfgLen advFlags idx : Nat)
    (addrType : String) (hwf : s.queue.WF)
    (hgate : (bleWindowStep s now).bleCountThisSecond < BLE_MAX_PER_SECOND)
    (hfind : ringScanFrom s.bleRing s.bleRingHead mac advFlags 0
      s.bleRingCount = some idx)
    (hwin : now - (s.bleRing.getD idx default).lastSeenMs ≤ BLE_DEDUPE_MS) :
    (onResult s now mac name rssi svcCount mfgLen advFlags addrType).2 = true ∧
    (onResult s now mac name rssi svcCount mfgLen advFlags
      addrType).1.bleRing = s.bleRing.set idx
        { s.bleRing.getD idx default with
          rssi := rssi, lastSeenMs := now,
          seenCount := (s.bleRing.getD idx default).seenCount + 1 } ∧
    (onResult s now mac name rssi svcCount mfgLen advFlags
      addrType).1.bleDedupeCount = s.bleDedupeCount + 1 ∧
    (onResult s now mac name rssi svcCount mfgLen advFlags
      addrType).1.bleRingCount = s.bleRingCount ∧
    (onResult s now mac name rssi svcCount mfgLen advFlags
      addrType).1.bleRingHead = s.bleRingHead ∧
    (onResult s now mac name rssi svcCount mfgLen advFlags
      addrType).1.bleSeenCount = s.bleSeenCount + 1 ∧
    ∃ rest, qJsons (onResult s now mac name rssi svcCount mfgLen advFlags
        addrType).1.queue = qJsons s.queue ++ rest ∧ rest.length ≤ 1 := by
  obtain ⟨hWr, hWc, hWh, hWd, hWs, hWq⟩ := bleWindowStep_preserves s now
  have hW'r : ({ bleWindowStep s now with
      bleCountThisSecond := (bleWindowStep s now).bleCountThisSecond + 1,
      bleSeenCount := (bleWindowStep s now).bleSeenCount + 1 } :
      NodeState).bleRing = s.bleRing := hWr
  have hfindW : ringScanFrom ({ bleWindowStep s now with
      bleCountThisSecond := (bleWindowStep s now).bleCountThisSecond + 1,
      bleSeenCount := (bleWindowStep s now).bleSeenCount + 1 } :
      NodeState).bleRing
      ({ bleWindowStep s now with
        bleCountThisSecond := (bleWindowStep s now).bleCountThisSecond + 1,
        bleSeenCount := (bleWindowStep s now).bleSeenCount + 1 } :
        NodeState).bleRingHead mac advFlags 0
      ({ bleWindowStep s now with
        bleCountThisSecond := (bleWindowStep s now).bleCountThisSecond + 1,
        bleSeenCount := (bleWindowStep s now).bleSeenCount + 1 } :
        NodeState).bleRingCount = some idx := by
    show ringScanFrom (bleWindowStep s now).bleRing
      (bleWindowStep s now).bleRingHead mac advFlags 0
      (bleWindowStep s now).bleRingCount = some idx
    rw [hWr, hWh, hWc]
    exact hfind
  have hwinW : now - (({ bleWindowStep s now with
      bleCountThisSecond := (bleWindowStep s now).bleCountThisSecond + 1,
      bleSeenCount := (bleWindowStep s now).bleSeenCount + 1 } :
      NodeState).bleRing.getD idx default).lastSeenMs ≤ BLE_DEDUPE_MS := by
    rw [hW'r]
    exact hwin
  have hrec := recordBle_dedup_hit
    { bleWindowStep s now with
      bleCountThisSecond := (bleWindowStep s now).bleCountThisSecond + 1,
      bleSeenCount := (bleWindowStep s now).bleSeenCount + 1 }
    now mac name rssi svcCount mfgLen advFlags idx hfindW hwinW
  obtain ⟨hc1, hc2, hc3, hc4, hc5, hc6, hc7⟩ := bleEmit_fields
    (bleWindowStep s now) now mac name rssi svcCount mfgLen advFlags addrType
  rw [onResult_gate_emit mac name rssi svcCount mfgLen advFlags addrType hgate]
  refine ⟨rfl, ?_, ?_, ?_, ?_, ?_, ?_⟩
  · show (bleEmit (bleWindowStep s now) now mac name rssi svcCount mfgLen
      advFlags addrType).bleRing = _
    rw [hc4, hrec, hW'r]
  · show (bleEmit (bleWindowStep s now) now mac name rssi svcCount mfgLen
      advFlags addrType).bleDedupeCount = _
    rw [hc7, hrec]
    show (bleWindowStep s now).bleDedupeCount + 1 = s.bleDedupeCount + 1
    rw [hWd]
  · show (bleEmit (bleWindowStep s now) now mac name rssi svcCount mfgLen
      advFlags addrType).bleRingCount = _
    rw [hc5, hrec]
    show (bleWindowStep s now).bleRingCount = s.bleRingCount
    exact hWc
  · show (bleEmit (bleWindowStep s now) now mac name rssi svcCount mfgLen
      advFlags addrType).bleRingHead = _
    rw [hc6, hrec]
    show (bleWindowStep s now).bleRingHead = s.bleRingHead
    exact hWh
  · show (bleEmit (bleWindowStep s now) now mac name rssi svcCount mfgLen
      advFlags addrType).bleSeenCount = _
    rw [hc3, hWs]
  · obtain ⟨rest, h1, h2⟩ := bleEmit_qJsons (bleWindowStep s now) now mac name
      rssi svcCount mfgLen advFlags addrType (by rw [hWq]; exact hwf)
    rw [hWq] at h1
    exact ⟨rest, h1, h2⟩

/-- C2 counterexample: the same advertisement delivered twice 1 ms apart,
both rate-admitted, hits the dedup path on the second delivery (dedup
counter 1, seen-count 2) and still emits both times: two ble.seen events
are enqueued, refuting "no ble.seen event is emitted ... exactly one
ble.seen emission". -/
theorem c2_counterexample :
    bleTwice1.2 = true ∧ bleTwice2.2 = true ∧
    bleTwice2.1.queue.count = 2 ∧
    (bleTwice2.1.bleRing.getD 0 default).seenCount = 2 ∧
    bleTwice2.1.bleDedupeCount = 1 :=
  ⟨by decide, by decide, by decide, by decide, by decide⟩

/-- C2 witness: the amended theorem applied to the second delivery of the
concrete advertisement. -/
theorem c2_witness :
    (onResult bleTwice1.1 6 "aa:bb:cc:dd:ee:ff" "" (-55) 0 0 6 "public").2 =
      true ∧
    (onResult bleTwice1.1 6 "aa:bb:cc:dd:ee:ff" "" (-55) 0 0 6
      "public").1.bleDedupeCount = bleTwice1.1.bleDedupeCount + 1 ∧
    (onResult bleTwice1.1 6 "aa:bb:cc:dd:ee:ff" "" (-55) 0 0 6
      "public").1.bleSeenCount = bleTwice1.1.bleSeenCount + 1 := by
  have h := c2_dedupe_refresh_still_emits bleTwice1.1 6 "aa:bb:cc:dd:ee:ff" ""
    (-55) 0 0 6 0 "public" (by decide) (by decide) (by decide) (by decide)
  exact ⟨h.1, h.2.2.1, h.2.2.2.2.2.1⟩

/-! ## Helper lemmas: BLE per-second window -/

theorem runBle_no_reset_bound {advs : List BleAdv} : ∀ {s : NodeState},
    s.bleCountThisSecond ≤ BLE_MAX_PER_SECOND →
    (∀ a ∈ advs, a.now < s.bleSecondStart + 1000) →
    (runBle s advs).2.length ≤ BLE_MAX_PER_SECOND - s.bleCountThisSecond := by
  induction advs with
  | nil =>
    intro s _ _
    simp [runBle]
  | cons a rest ih =>
    intro s hle hwin
    have ha : a.now < s.bleSecondStart + 1000 := hwin a (List.mem_cons_self a rest)
    have hnr : a.now - s.bleSecondStart < 1000 := by omega
    have hW : bleWindowStep s a.now = { s with lastBleResultMs := a.now } :=
      bleWindowStep_of_no_reset hnr
    by_cases hcap : BLE_MAX_PER_SECOND ≤ s.bleCountThisSecond
    · have hdrop := onResult_gate_drop a.mac a.name a.rssi a.svcCount a.mfgLen
        a.advFlags a.addrType hnr hcap
      simp only [runBle, hdrop]
      have hle' : ({ s with lastBleResultMs := a.now } :
          NodeState).bleCountThisSecond ≤ BLE_MAX_PER_SECOND := hle
      have hwin' : ∀ a' ∈ rest, a'.now <
          ({ s with lastBleResultMs := a.now } : NodeState).bleSecondStart +
            1000 :=
        fun a' ha' => hwin a' (List.mem_cons_of_mem a ha')
      exact ih hle' hwin'
    · have hgate : (bleWindowStep s a.now).bleCountThisSecond <
          BLE_MAX_PER_SECOND := by
        rw [hW]
        show s.bleCountThisSecond < BLE_MAX_PER_SECOND
        omega
      have hemit := onResult_gate_emit a.mac a.name a.rssi a.svcCount a.mfgLen
        a.advFlags a.addrType hgate
      obtain ⟨hc1, hc2, -, -, -, -, -⟩ := bleEmit_fields (bleWindowStep s a.now)
        a.now a.mac a.name a.rssi a.svcCount a.mfgLen a.advFlags a.addrType
      have hEc : (bleEmit (bleWindowStep s a.now) a.now a.mac a.name a.rssi
          a.svcCount a.mfgLen a.advFlags a.addrType).bleCountThisSecond =
          s.bleCountThisSecond + 1 := by
        rw [hc1, hW]
      have hEs : (bleEmit (bleWindowStep s a.now) a.now a.mac a.name a.rssi
          a.svcCount a.mfgLen a.advFlags a.addrType).bleSecondStart =
          s.bleSecondStart := by
        rw [hc2, hW]
      have hrest := @ih (bleEmit (bleWindowStep s a.now) a.now a.mac a.name
          a.rssi a.svcCount a.mfgLen a.advFlags a.addrType)
        (by rw [hEc]; omega)
        (by intro a' ha'
            rw [hEs]
            exact hwin a' (List.mem_cons_of_mem a ha'))
      rw [hEc] at hrest
      simp only [runBle, hemit, eq_self_iff_true, if_true, List.length_cons]
      omega

/-- C3 (amended): the per-second gate bounds emissions per counter window,
not per sliding 1000 ms interval: while the window does not reset (each
callback arrives less than 1000 ms after the window start), the number of
ble.seen emissions never exceeds BLE_MAX_PER_SECOND minus the count already
consumed; a callback finding the counter at the cap is dropped without
touching the ring or the queue and without emitting; and a callback
arriving 1000 ms or more after the window start resets the window (start
:= now, counter restarts at this emission). -/
theorem c3_per_second_cap :
    (∀ (s : NodeState) (advs : List BleAdv),
      s.bleCountThisSecond ≤ BLE_MAX_PER_SECOND →
      (∀ a ∈ advs, a.now < s.bleSecondStart + 1000) →
      (runBle s advs).2.length ≤
        BLE_MAX_PER_SECOND - s.bleCountThisSecond) ∧
    (∀ (s : NodeState) (now : Nat) (mac name : String) (rssi : Int)
      (svcCount mfgLen advFlags : Nat) (addrType : String),
      now - s.bleSecondStart < 1000 →
      BLE_MAX_PER_SECOND ≤ s.bleCountThisSecond →
      onResult s now mac name rssi svcCount mfgLen advFlags addrType =
        ({ s with lastBleResultMs := now }, false)) ∧
    (∀ (s : NodeState) (now : Nat) (mac name : String) (rssi : Int)
      (svcCount mfgLen advFlags : Nat) (addrType : String),
      1000 ≤ now - s.bleSecondStart →
      (onResult s now mac name rssi svcCount mfgLen advFlags addrType).2 =
        true ∧
      (onResult s now mac name rssi svcCount mfgLen advFlags
        addrType).1.bleSecondStart = now ∧
      (onResult s now mac name rssi svcCount mfgLen advFlags
        addrType).1.bleCountThisSecond = 1) := by
  refine ⟨fun s advs hle hwin => runBle_no_reset_bound hle hwin,
    fun s now mac name rssi svcCount mfgLen advFlags addrType hnr hcap =>
      onResult_gate_drop mac name rssi svcCount mfgLen advFlags addrType hnr
        hcap,
    ?_⟩
  intro s now mac name rssi svcCount mfgLen advFlags addrType hreset
  have hW := bleWindowStep_of_reset hreset
  have hgate : (bleWindowStep s now).bleCountThisSecond <
      BLE_MAX_PER_SECOND := by
    rw [hW]
    show 0 < BLE_MAX_PER_SECOND
    decide
  obtain ⟨hc1, hc2, -, -, -, -, -⟩ := bleEmit_fields (bleWindowStep s now) now
    mac name rssi svcCount mfgLen advFlags addrType
  rw [onResult_gate_emit mac name rssi svcCount mfgLen advFlags addrType hgate]
  refine ⟨rfl, ?_, ?_⟩
  · show (bleEmit (bleWindowStep s now) now mac name rssi svcCount mfgLen
      advFlags addrType).bleSecondStart = now
    rw [hc2, hW]
  · show (bleEmit (bleWindowStep s now) now mac name rssi svcCount mfgLen
      advFlags addrType).bleCountThisSecond = 1
    rw [hc1, hW]

/-- C3 counterexample: twenty advertisements, ten at t = 999 ms and ten at
t = 1000 ms, are all emitted (the counter resets at t = 1000), so the
sliding 1000 ms window [999, 1999) contains 20 ble.seen emissions, twice
the cap of 10 - refuting "within any 1000 ms window never exceeds
BLE_MAX_PER_SECOND" as stated. -/
theorem c3_counterexample :
    (runBle bootState floodAdvs).2.length = 20 ∧
    (∀ t ∈ (runBle bootState floodAdvs).2, 999 ≤ t ∧ t < 1999) ∧
    BLE_MAX_PER_SECOND = 10 :=
  ⟨by decide, by decide, by decide⟩

/-- C3 witness: the amended theorem applied to twelve same-window
advertisements from boot (at most 10 emitted), to a capped callback on the
flooded state (dropped), and to a late callback (window reset). -/
theorem c3_witness :
    (runBle bootState smallAdvs).2.length ≤
      BLE_MAX_PER_SECOND - bootState.bleCountThisSecond ∧
    onResult floodedState 1500 "bb" "" 0 0 0 0 "public" =
      ({ floodedState with lastBleResultMs := 1500 }, false) ∧
    (onResult floodedState 2500 "bb" "" 0 0 0 0 "public").2 = true ∧
    (onResult floodedState 2500 "bb" "" 0 0 0 0
      "public").1.bleSecondStart = 2500 := by
  have h1 := c3_per_second_cap.1 bootState smallAdvs (by decide) (by decide)
  have h2 := c3_per_second_cap.2.1 floodedState 1500 "bb" "" 0 0 0 0 "public"
    (by decide) (by decide)
  have h3 := c3_per_second_cap.2.2 floodedState 2500 "bb" "" 0 0 0 0 "public"
    (by decide)
  exact ⟨h1, h2, h3.1, h3.2.1⟩
